import Mathlib

/-! # Mapty workout tracker: a shallow embedding of `script.js`

The development models the state that the `App` class of `script.js` owns
(the `#workouts` array, `#mapEvent`, `#editObject`), the parts of the page it
reads and writes (the form inputs, the rendered list items, the map markers)
and the `localStorage` entry stored under the key `"workouts"`.

Conventions of the embedding:

* JavaScript numbers are modelled by `JSNum` as IEEE-754 doubles: `NaN`, the
  two infinities, the two zeros, and the finite values given by their exact
  rational value.  Parsing, division and subtraction round to the nearest
  double, ties to even.
* A handler that throws keeps every mutation it made before the throw, so a
  handler returns an `Outcome`: the state it left behind and whether it
  completed.
* `Math.random`, `Date.now` and `new Date()` are inputs of the handlers that
  construct a workout (`Env`).
* CSS classes that only drive presentation (side bar, menus, hidden form rows)
  are left out; the visibility of the form window is kept.
-/

namespace Mapty

/-! ## JavaScript numbers and `ToNumber` on strings -/

/-- A JavaScript number, that is an IEEE-754 double: `NaN`, an infinity with
its sign, the negative zero, or a finite value given by its exact rational
value (`fin 0` is the positive zero).  The operations below only produce
finite values that are doubles. -/
inductive JSNum where
  | nan : JSNum
  | inf (negative : Bool) : JSNum
  | negZero : JSNum
  | fin (q : ℚ) : JSNum
  deriving DecidableEq

namespace JSNum

/-- The power `2 ^ e` for an integer exponent. -/
def pow2 (e : ℤ) : ℚ :=
  if 0 ≤ e then ((2 ^ e.toNat : ℕ) : ℚ) else 1 / ((2 ^ (-e).toNat : ℕ) : ℚ)

/-- The number of halvings that bring a natural number below 2, at most
`fuel` of them. -/
def log2Aux : Nat → Nat → Nat
  | 0, _ => 0
  | fuel + 1, n => if n < 2 then 0 else log2Aux fuel (n / 2) + 1

/-- The integer part of the binary logarithm of a natural number (0 for 0). -/
def natLog2 (n : Nat) : Nat := log2Aux n n

/-- The integer `l` with `2 ^ l ≤ q < 2 ^ (l + 1)`, for a positive `q`. -/
def floorLog2 (q : ℚ) : ℤ :=
  if pow2 ((natLog2 q.num.natAbs : ℤ) - (natLog2 q.den : ℤ)) ≤ q then
    (natLog2 q.num.natAbs : ℤ) - (natLog2 q.den : ℤ)
  else (natLog2 q.num.natAbs : ℤ) - (natLog2 q.den : ℤ) - 1

/-- The integer nearest to a non-negative `r`, the even one of the two when
`r` lies half way. -/
def roundHalfEven (r : ℚ) : ℤ :=
  if r - (⌊r⌋ : ℤ) < 1 / 2 then ⌊r⌋
  else if 1 / 2 < r - (⌊r⌋ : ℤ) then ⌊r⌋ + 1
  else if ⌊r⌋ % 2 = 0 then ⌊r⌋
  else ⌊r⌋ + 1

/-- The zero with the given sign. -/
def zero (negative : Bool) : JSNum :=
  if negative then negZero else fin 0

/-- The double nearest to a rational (round to nearest, ties to even): the
significand has 53 bits, the exponent of its last bit is at least `-1074`,
a magnitude that rounds to `2 ^ 1024` is an infinity, and a non-zero value
that rounds to zero keeps its sign. -/
def roundDouble (q : ℚ) : JSNum :=
  if q = 0 then fin 0
  else if pow2 1024 ≤
      (roundHalfEven (|q| / pow2 (max (floorLog2 |q| - 52) (-1074))) : ℚ) *
        pow2 (max (floorLog2 |q| - 52) (-1074)) then
    inf (decide (q < 0))
  else if (roundHalfEven (|q| / pow2 (max (floorLog2 |q| - 52) (-1074))) : ℚ) *
      pow2 (max (floorLog2 |q| - 52) (-1074)) = 0 then
    zero (decide (q < 0))
  else if q < 0 then
    fin (-((roundHalfEven (|q| / pow2 (max (floorLog2 |q| - 52) (-1074))) : ℚ) *
      pow2 (max (floorLog2 |q| - 52) (-1074))))
  else
    fin ((roundHalfEven (|q| / pow2 (max (floorLog2 |q| - 52) (-1074))) : ℚ) *
      pow2 (max (floorLog2 |q| - 52) (-1074)))

/-- The test `Number.isFinite(x)`. -/
def isFinite : JSNum → Bool
  | fin _ => true
  | negZero => true
  | _ => false

/-- The test `Number.isNaN(x)`. -/
def isNaN : JSNum → Bool
  | nan => true
  | _ => false

/-- The value of a finite number (0 for the others). -/
def valueOf : JSNum → ℚ
  | fin q => q
  | _ => 0

/-- The sign bit of a number. -/
def signBit : JSNum → Bool
  | nan => false
  | inf negative => negative
  | negZero => true
  | fin q => decide (q < 0)

/-- The comparison `x > y` of JavaScript: false as soon as one side is `NaN`;
the two zeros are equal. -/
def gt (x y : JSNum) : Bool :=
  match x, y with
  | nan, _ => false
  | _, nan => false
  | inf a, inf b => !a && b
  | inf a, _ => !a
  | _, inf b => b
  | x, y => decide (valueOf y < valueOf x)

/-- The comparison `x < y` of JavaScript. -/
def lt (x y : JSNum) : Bool := gt y x

/-- The comparison `x <= y` of JavaScript. -/
def le (x y : JSNum) : Bool := !(isNaN x) && !(isNaN y) && !(gt x y)

/-- The quotient `x / y` of JavaScript. -/
def div (x y : JSNum) : JSNum :=
  match x, y with
  | nan, _ => nan
  | _, nan => nan
  | inf _, inf _ => nan
  | inf a, y => inf (a != signBit y)
  | x, inf b => zero (signBit x != b)
  | x, y =>
    if valueOf y = 0 then
      if valueOf x = 0 then nan else inf (signBit x != signBit y)
    else if valueOf x = 0 then zero (signBit x != signBit y)
    else roundDouble (valueOf x / valueOf y)

/-- The difference `x - y` of JavaScript. -/
def sub (x y : JSNum) : JSNum :=
  match x, y with
  | nan, _ => nan
  | _, nan => nan
  | inf a, inf b => if a = b then nan else inf a
  | inf a, _ => inf a
  | _, inf b => inf (!b)
  | x, y =>
    if valueOf x - valueOf y = 0 then
      if x = negZero ∧ y ≠ negZero then negZero else fin 0
    else roundDouble (valueOf x - valueOf y)

/-- The function `Math.abs`. -/
def abs : JSNum → JSNum
  | nan => nan
  | inf _ => inf false
  | negZero => fin 0
  | fin q => fin |q|

/-- The function `Math.max` of two numbers. -/
def max (x y : JSNum) : JSNum :=
  if isNaN x || isNaN y then nan
  else if gt x y then x
  else if gt y x then y
  else if x = negZero then y
  else x

/-- Every finite double is an integer multiple of `2 ^ (-1074)`. -/
def onGrid (q : ℚ) : Prop :=
  ∃ k : ℤ, q = (k : ℚ) * pow2 (-1074)

end JSNum

/-- White space and line terminators that `ToNumber` strips from both ends. -/
def isJSSpace (c : Char) : Bool :=
  c = ' ' || c = '\t' || c = '\n' || c = '\r' || c.toNat = 11 || c.toNat = 12 ||
  c.toNat = 160 || c.toNat = 65279 || c.toNat = 8232 || c.toNat = 8233 ||
  c.toNat = 5760 || (8192 ≤ c.toNat && c.toNat ≤ 8202) || c.toNat = 8239 ||
  c.toNat = 8287 || c.toNat = 12288

/-- Value of a digit character in the given radix, if it is one. -/
def digitVal (radix : Nat) (c : Char) : Option Nat :=
  let v :=
    if '0' ≤ c ∧ c ≤ '9' then some (c.toNat - 48)
    else if 'a' ≤ c ∧ c ≤ 'f' then some (c.toNat - 87)
    else if 'A' ≤ c ∧ c ≤ 'F' then some (c.toNat - 55)
    else none
  match v with
  | some d => if d < radix then some d else none
  | none => none

/-- Reads the longest run of digits of the radix: the value read so far, the
number of digits read, and the characters left. -/
def readDigits (radix : Nat) : List Char → Nat → Nat → Nat × Nat × List Char
  | [], acc, n => (acc, n, [])
  | c :: cs, acc, n =>
    match digitVal radix c with
    | some d => readDigits radix cs (acc * radix + d) (n + 1)
    | none => (acc, n, c :: cs)

/-- A literal made of digits of the radix only, and at least one (the part
after `0x`, `0o`, `0b`), rounded to a double. -/
def radixLiteral (radix : Nat) (cs : List Char) : JSNum :=
  match readDigits radix cs 0 0 with
  | (v, n, []) => if n = 0 then JSNum.nan else JSNum.roundDouble v
  | _ => JSNum.nan

/-- The exponent part of a decimal literal: empty, or `e`/`E`, an optional sign
and at least one digit.  `none` when the characters are not an exponent part. -/
def readExponent : List Char → Option ℤ
  | [] => some 0
  | c :: cs =>
    if c = 'e' || c = 'E' then
      let (negative, rest) :=
        match cs with
        | '-' :: r => (true, r)
        | '+' :: r => (false, r)
        | r => (false, r)
      match readDigits 10 rest 0 0 with
      | (v, n, []) => if n = 0 then none else some (if negative then -(v : ℤ) else (v : ℤ))
      | _ => none
    else none

/-- Scales a mantissa by a power of ten. -/
def scale10 (m : ℚ) (e : ℤ) : ℚ :=
  if 0 ≤ e then m * (10 : ℚ) ^ e.toNat else m / (10 : ℚ) ^ (-e).toNat

/-- An unsigned decimal literal: digits, an optional fraction, an optional
exponent, with a digit on at least one side of the dot. -/
def unsignedDecimal (cs : List Char) : Option ℚ :=
  match readDigits 10 cs 0 0 with
  | (ip, n, rest) =>
    match rest with
    | '.' :: fr =>
      match readDigits 10 fr 0 0 with
      | (fp, k, rest2) =>
        if n = 0 ∧ k = 0 then none
        else
          match readExponent rest2 with
          | some e => some (scale10 ((ip : ℚ) + (fp : ℚ) / (10 : ℚ) ^ k) e)
          | none => none
    | _ =>
      if n = 0 then none
      else
        match readExponent rest with
        | some e => some (scale10 (ip : ℚ) e)
        | none => none

/-- A decimal literal after its optional sign: `Infinity`, or an unsigned
decimal, whose exact value is rounded to a double (a zero takes the sign of
the literal). -/
def signedBody (negative : Bool) (cs : List Char) : JSNum :=
  if cs = "Infinity".toList then JSNum.inf negative
  else
    match unsignedDecimal cs with
    | some q =>
      if q = 0 then JSNum.zero negative
      else JSNum.roundDouble (if negative then -q else q)
    | none => JSNum.nan

/-- The grammar `StringNumericLiteral` on the trimmed characters. -/
def parseTrimmed : List Char → JSNum
  | [] => JSNum.fin 0
  | '0' :: 'x' :: cs => radixLiteral 16 cs
  | '0' :: 'X' :: cs => radixLiteral 16 cs
  | '0' :: 'o' :: cs => radixLiteral 8 cs
  | '0' :: 'O' :: cs => radixLiteral 8 cs
  | '0' :: 'b' :: cs => radixLiteral 2 cs
  | '0' :: 'B' :: cs => radixLiteral 2 cs
  | '-' :: cs => signedBody true cs
  | '+' :: cs => signedBody false cs
  | cs => signedBody false cs

/-- The unary plus of `+field` on a string (`ToNumber`): white space is
trimmed, the empty string is `0`, anything that is not a numeric literal is
`NaN`, and the exact value of a literal is rounded to the nearest double. -/
def toNumber (s : String) : JSNum :=
  parseTrimmed ((s.toList.dropWhile isJSSpace).reverse.dropWhile isJSSpace).reverse

/-! ## Workout records -/

/-- What the code reads of a `Date`: the time stamp and the two getters used
by the description. -/
structure JSDate where
  time : Nat
  month : Fin 12
  day : Fin 7
  deriving DecidableEq

/-- The `latlng` of a map click event. -/
structure LatLng where
  lat : ℚ
  lng : ℚ
  deriving DecidableEq

/-- The array `[lat, lng]` of a workout; a component is `none` when the
variable it was built from was still `undefined`. -/
abbrev Coords := Option ℚ × Option ℚ

/-- A workout object.  The properties that only one of the two classes sets
are optional: `none` is a property the object does not have.  The numeric
inputs are the strings read from the form, as `_submitForm` passes them. -/
structure Workout where
  id : String
  date : JSDate
  coords : Coords
  distance : String
  duration : String
  type : String
  cadence : Option String
  elevGain : Option String
  desc : String
  pace : Option JSNum
  speed : Option JSNum
  deriving DecidableEq

/-- An element of the `#workouts` array: a workout object, or `undefined`. -/
abbrev Entry := Option Workout

/-- What the field initialisers of `Workout` draw from outside: the id
computed from `Math.random()` and `Date.now()`, and `new Date()`. -/
structure Env where
  id : String
  date : JSDate
  deriving DecidableEq

/-- The table `months` of `_setDescription`. -/
def months : List String :=
  ["January", "February", "March", "April", "May", "June", "July", "August",
   "September", "October", "November", "December"]

/-- The expression `type[0].toUpperCase() + type.slice(1)`. -/
def upperFirst (type : String) : String :=
  match type.toList with
  | [] => ""
  | c :: cs => String.mk (c.toUpper :: cs)

/-- Method `Workout._setDescription`: kind, month name and `getDay()`. -/
def _setDescription (w : Workout) : Workout :=
  { w with desc := upperFirst w.type ++ " on " ++ months.getD w.date.month.val "" ++ " " ++
      toString w.date.day.val }

/-- Method `Running.calcPace`: minutes per kilometre. -/
def calcPace (w : Workout) : Workout :=
  { w with pace := some (JSNum.div (toNumber w.duration) (toNumber w.distance)) }

/-- Method `Cycling.calcSpeed`: kilometres per hour. -/
def calcSpeed (w : Workout) : Workout :=
  { w with speed := some (JSNum.div (toNumber w.distance)
      (JSNum.div (toNumber w.duration) (JSNum.fin 60))) }

/-- The object the `Workout` constructor leaves to the subclass constructor. -/
def Workout.base (env : Env) (type : String) (coords : Coords) (distance duration : String) :
    Workout :=
  { id := env.id, date := env.date, coords := coords, distance := distance,
    duration := duration, type := type, cadence := none, elevGain := none, desc := "",
    pace := none, speed := none }

/-- The constructor of `Running`. -/
def Running (env : Env) (coords : Coords) (distance duration cadence : String) : Workout :=
  calcPace (_setDescription
    { Workout.base env "running" coords distance duration with cadence := some cadence })

/-- The constructor of `Cycling`. -/
def Cycling (env : Env) (coords : Coords) (distance duration elevGain : String) : Workout :=
  calcSpeed (_setDescription
    { Workout.base env "cycling" coords distance duration with elevGain := some elevGain })

/-! ## The page and the application state -/

/-- The values of the form inputs (`workoutDistance.value` and so on). -/
structure Form where
  distance : String
  duration : String
  cadence : String
  elevGain : String
  type : String
  deriving DecidableEq

/-- A rendered `<li class="workout">`: its `data-id` and what it displays.
The field `rate` is the number that `toFixed(1)` formats. -/
structure ListItem where
  dataId : String
  type : String
  title : String
  distance : String
  duration : String
  rate : JSNum
  metric : Option String
  deriving DecidableEq

/-- A call on `localStorage` for the key `"workouts"`. -/
inductive StorageOp where
  | removeItem : StorageOp
  | setItem (value : List Entry) : StorageOp
  deriving DecidableEq

/-- The state of the application: the private fields of `App`, the form, the
rendered list in document order (top first), the marker positions on the map,
the `localStorage` entry and the calls made on it so far. -/
structure AppState where
  mapEvent : Option LatLng
  workouts : List Entry
  editObject : Option Workout
  form : Form
  formHidden : Bool
  rendered : List ListItem
  markers : List Coords
  storage : Option (List Entry)
  storageLog : List StorageOp
  deriving DecidableEq

/-- How a handler ended: it ran to its end, or it threw; either way with the
state it left. -/
inductive Outcome where
  | ok (s : AppState) : Outcome
  | threw (s : AppState) : Outcome
  deriving DecidableEq

/-- The state a handler left behind. -/
def Outcome.state : Outcome → AppState
  | ok s => s
  | threw s => s

/-- Whether the handler ran to its end. -/
def Outcome.completed : Outcome → Bool
  | ok _ => true
  | threw _ => false

/-- Sequencing of statements: what follows runs only when nothing threw. -/
def Outcome.andThen (o : Outcome) (f : AppState → Outcome) : Outcome :=
  match o with
  | ok s => f s
  | threw s => threw s

/-- The empty form. -/
def emptyForm : Form :=
  { distance := "", duration := "", cadence := "", elevGain := "", type := "running" }

/-- The state after `new App()` on a page without list items, before the map
is clicked; `stored` is what `localStorage` holds. -/
def initialState (stored : Option (List Entry)) : AppState :=
  { mapEvent := none, workouts := [], editObject := none, form := emptyForm,
    formHidden := true, rendered := [], markers := [], storage := stored, storageLog := [] }

/-- The call `document.querySelector(sel).remove()` for the selector of the
list item with the given `data-id`: the first such item in document order is
removed; `none` when there is none (`remove` is read from `null`). -/
def removeListItem (id : String) : List ListItem → Option (List ListItem)
  | [] => none
  | item :: rest =>
    if item.dataId = id then some rest
    else
      match removeListItem id rest with
      | some rest1 => some (item :: rest1)
      | none => none

/-- Method `App._formValidation`. -/
def _formValidation (formFields : List String) : Bool :=
  formFields.all fun field =>
    (toNumber field).isFinite && (toNumber field).gt (JSNum.fin 0) &&
      (toNumber field).lt (JSNum.fin 100)

/-- Method `App._renderForm`: shows the form window and records the event (the
`latlng` of a map click; nothing when called without an event). -/
def _renderForm (e : Option LatLng) (s : AppState) : AppState :=
  { s with formHidden := false, mapEvent := e }

/-- Method `App._hideForm`. -/
def _hideForm (key : String) (s : AppState) : AppState :=
  if key ≠ "Escape" then s else { s with formHidden := true }

/-- Method `App._renderWorkoutMarker`.  Reading `coords` of `undefined` throws, and so
does the marker constructor of the map library on a coordinate that is not a
number; otherwise a marker is added at the coordinates. -/
def _renderWorkoutMarker (workout : Entry) (s : AppState) : Outcome :=
  match workout with
  | none => Outcome.threw s
  | some w =>
    match w.coords with
    | (some _, some _) => Outcome.ok { s with markers := s.markers ++ [w.coords] }
    | _ => Outcome.threw s

/-- The method `equals` of a marker position in the map library, applied to
the coordinates of a workout: the larger of the two absolute differences,
computed on doubles, is at most `1.0E-9`. -/
def latLngEquals (position target : Coords) : Bool :=
  match position, target with
  | (some lat1, some lng1), (some lat2, some lng2) =>
    JSNum.le
      (JSNum.max (JSNum.abs (JSNum.sub (JSNum.fin lat1) (JSNum.fin lat2)))
        (JSNum.abs (JSNum.sub (JSNum.fin lng1) (JSNum.fin lng2))))
      (toNumber "1.0E-9")
  | _, _ => false

/-- The loop of `_removeWorkoutMarker` over the markers, oldest first: the
first marker whose position equals the target is removed and the loop ends. -/
def removeFirstMarker (target : Coords) : List Coords → List Coords
  | [] => []
  | position :: rest =>
    if latLngEquals position target then rest
    else position :: removeFirstMarker target rest

/-- Method `App._removeWorkoutMarker`: the first marker at the coordinates of the
workout is removed.  The comparison of the map library throws on a coordinate
that is not a number, which happens once there is a marker to compare with. -/
def _removeWorkoutMarker (workout : Workout) (s : AppState) : Outcome :=
  match workout.coords with
  | (some _, some _) =>
    Outcome.ok { s with markers := removeFirstMarker workout.coords s.markers }
  | _ => if s.markers = [] then Outcome.ok s else Outcome.threw s

/-- The list item that the template of `_renderWorkout` describes. -/
def listItemOf (w : Workout) (rate : JSNum) : ListItem :=
  { dataId := w.id, type := w.type, title := w.desc, distance := w.distance,
    duration := w.duration, rate := rate,
    metric := if w.type = "running" then w.cadence else w.elevGain }

/-- Method `App._renderWorkout`: builds the item and inserts it right after the form,
that is, above every item rendered before.  Building the item throws when the
workout is `undefined` or lacks the rate its type selects (`toFixed` is read
from `undefined`). -/
def _renderWorkout (workout : Entry) (s : AppState) : Outcome :=
  match workout with
  | none => Outcome.threw s
  | some w =>
    match (if w.type = "running" then w.pace else w.speed) with
    | none => Outcome.threw s
    | some rate => Outcome.ok { s with rendered := listItemOf w rate :: s.rendered }

/-- Method `App._setWorkoutLocalStorage`. -/
def _setWorkoutLocalStorage (workouts : List Entry) (s : AppState) : AppState :=
  { s with storage := some workouts,
           storageLog := s.storageLog ++ [StorageOp.removeItem, StorageOp.setItem workouts] }

/-- The loop `forEach` of `_getWorkoutLocalStorage`. -/
def restoreSweep : List Entry → AppState → Outcome
  | [], s => Outcome.ok s
  | workout :: rest, s =>
    match _renderWorkout workout s with
    | Outcome.threw s1 => Outcome.threw s1
    | Outcome.ok s1 =>
      match _renderWorkoutMarker workout s1 with
      | Outcome.threw s2 => Outcome.threw s2
      | Outcome.ok s2 => restoreSweep rest s2

/-- What `JSON.stringify` followed by `JSON.parse` makes of a number: `NaN`
and the infinities become `null`, on which `toFixed` cannot be read any more
than on `undefined`, and the negative zero becomes `0`. -/
def jsonNumber : JSNum → Option JSNum
  | JSNum.fin q => some (JSNum.fin q)
  | JSNum.negZero => some (JSNum.fin 0)
  | _ => none

/-- What `JSON.stringify` followed by `JSON.parse` makes of a stored element
(`undefined` becomes `null`, which the code treats alike). -/
def jsonCopy (e : Entry) : Entry :=
  e.map fun w => { w with pace := w.pace.bind jsonNumber, speed := w.speed.bind jsonNumber }

/-- Method `App._getWorkoutLocalStorage`. -/
def _getWorkoutLocalStorage (s : AppState) : Outcome :=
  match s.storage with
  | none => Outcome.ok s
  | some workouts =>
    restoreSweep (workouts.map jsonCopy) { s with workouts := workouts.map jsonCopy }

/-! ## Submitting the form -/

/-- The assignments of the edit branch of `_submitForm` to the stored
object: distance, duration, the metric of the new kind, and the kind. -/
def patchWorkout (workoutEl workout : Workout) : Workout :=
  let w1 := { workoutEl with distance := workout.distance, duration := workout.duration }
  let w2 :=
    if workout.type = "running" then { w1 with cadence := workout.cadence }
    else { w1 with elevGain := workout.elevGain }
  { w2 with type := workout.type }

/-- The loop `forEach` of the edit branch of `_submitForm` over the elements
that are left to visit: the elements after the loop, the rendered list after
the loop, and whether the loop completed.  Reading `id` of an `undefined`
element throws; so does removing a list item that is not there; so does
reading `distance` of an `undefined` new workout. -/
def editSweep (editId : String) (workout : Entry) :
    List Entry → List ListItem → List Entry × List ListItem × Bool
  | [], dom => ([], dom, true)
  | none :: rest, dom => (none :: rest, dom, false)
  | some workoutEl :: rest, dom =>
    if workoutEl.id = editId then
      match removeListItem workoutEl.id dom with
      | none => (some workoutEl :: rest, dom, false)
      | some dom1 =>
        match workout with
        | none => (some workoutEl :: rest, dom1, false)
        | some w =>
          match editSweep editId workout rest dom1 with
          | (rest1, dom2, done) => (some (patchWorkout workoutEl w) :: rest1, dom2, done)
    else
      match editSweep editId workout rest dom with
      | (rest1, dom1, done) => (some workoutEl :: rest1, dom1, done)

/-- The coordinates `[lat, lng]` that `_submitForm` gives to the constructor:
those of the object being edited when there is one, else those of the last
map click, else two `undefined`. -/
def submitCoords (s : AppState) : Coords :=
  match s.editObject with
  | some editObject => editObject.coords
  | none =>
    match s.mapEvent with
    | some latlng => (some latlng.lat, some latlng.lng)
    | none => (none, none)

/-- The block `if (workoutType.value === "running")` of `_submitForm`: the
workout built, if any, and the form after it. -/
def submitRunning (env : Env) (coords : Coords) (form : Form) : Entry × Form :=
  if form.type = "running" then
    if _formValidation [form.distance, form.duration, form.cadence] then
      (some (Running env coords form.distance form.duration form.cadence),
       { form with distance := "", duration := "", cadence := "" })
    else (none, form)
  else (none, form)

/-- The block `if (workoutType.value === "cycling")` of `_submitForm`, run
after the block for running on what that block left. -/
def submitCycling (env : Env) (coords : Coords) (prev : Entry × Form) : Entry × Form :=
  if prev.2.type = "cycling" then
    if _formValidation [prev.2.distance, prev.2.duration, prev.2.elevGain] then
      (some (Cycling env coords prev.2.distance prev.2.duration prev.2.elevGain),
       { prev.2 with distance := "", duration := "", elevGain := "", type := "running" })
    else prev
  else prev

/-- The new workout and the form after the two validation blocks. -/
def submitBuild (env : Env) (s : AppState) : Entry × Form :=
  submitCycling env (submitCoords s) (submitRunning env (submitCoords s) s.form)

/-- The statement `if (this.#editObject) ... else this.#workouts.push(workout)`
of `_submitForm`. -/
def submitStore (workout : Entry) (s : AppState) : Outcome :=
  match s.editObject with
  | some editObject =>
    match editSweep editObject.id workout s.workouts s.rendered with
    | (workouts, dom, true) => Outcome.ok { s with workouts := workouts, rendered := dom }
    | (workouts, dom, false) => Outcome.threw { s with workouts := workouts, rendered := dom }
  | none => Outcome.ok { s with workouts := s.workouts ++ [workout] }

/-- Method `App._submitForm`. -/
def _submitForm (env : Env) (s : AppState) : Outcome :=
  let built := submitBuild env s
  let workout := built.1
  (submitStore workout { s with form := built.2 }).andThen fun s1 =>
  (_renderWorkoutMarker workout { s1 with formHidden := true }).andThen fun s2 =>
  (_renderWorkout workout s2).andThen fun s3 =>
  Outcome.ok (_setWorkoutLocalStorage s3.workouts s3)

/-! ## Deleting, sorting, restoring the order -/

/-- The loop `forEach` of `_deleteWorkout`.  `forEach` fixes the number of
indices to visit when it starts (`todo` of them are left, the next is `idx`),
skips an index that the array no longer has, and the callback removes
`idx + 1` elements from index `idx` when the ids match
(`splice(idx, idx + 1)`). -/
def deleteSweep (id : String) : Nat → Nat → AppState → Outcome
  | 0, _, s => Outcome.ok s
  | todo + 1, idx, s =>
    match s.workouts.get? idx with
    | none => deleteSweep id todo (idx + 1) s
    | some none => Outcome.threw s
    | some (some workoutEl) =>
      if workoutEl.id = id then
        match removeListItem workoutEl.id s.rendered with
        | none => Outcome.threw s
        | some dom =>
          match _removeWorkoutMarker workoutEl
              { s with rendered := dom,
                       workouts := s.workouts.take idx ++ s.workouts.drop (idx + (idx + 1)) } with
          | Outcome.threw s1 => Outcome.threw s1
          | Outcome.ok s1 => deleteSweep id todo (idx + 1) s1
      else deleteSweep id todo (idx + 1) s

/-- Method `App._deleteWorkout`. -/
def _deleteWorkout (workout : Workout) (s : AppState) : Outcome :=
  (deleteSweep workout.id s.workouts.length 0 s).andThen fun s1 =>
  Outcome.ok (_setWorkoutLocalStorage s1.workouts s1)

/-- A loop `forEach` that removes the list item of every element. -/
def removeSweep : List Entry → AppState → Outcome
  | [], s => Outcome.ok s
  | none :: _, s => Outcome.threw s
  | some workout :: rest, s =>
    match removeListItem workout.id s.rendered with
    | none => Outcome.threw s
    | some dom => removeSweep rest { s with rendered := dom }

/-- A loop `forEach` that renders every element with `_renderWorkout`. -/
def renderSweep : List Entry → AppState → Outcome
  | [], s => Outcome.ok s
  | workout :: rest, s =>
    match _renderWorkout workout s with
    | Outcome.threw s1 => Outcome.threw s1
    | Outcome.ok s1 => renderSweep rest s1

/-- Method `App._backToNormal`. -/
def _backToNormal (s : AppState) : Outcome :=
  (removeSweep s.workouts s).andThen fun s1 => renderSweep s1.workouts s1

/-- Insertion of one element into a list sorted by the comparator `cmp`: it
goes before the first element that the comparator does not put before it. -/
def sortInsert (cmp : Entry → Entry → JSNum) (a : Entry) : List Entry → List Entry
  | [] => [a]
  | b :: rest =>
    if (cmp a b).gt (JSNum.fin 0) then b :: sortInsert cmp a rest else a :: b :: rest

/-- The method `Array.prototype.sort` with a comparator: `a` stays before `b` unless
`cmp(a, b) > 0`, and elements that compare equal keep their order.  For a
consistent comparator this is the order the language prescribes. -/
def jsSort (cmp : Entry → Entry → JSNum) : List Entry → List Entry
  | [] => []
  | a :: rest => sortInsert cmp a (jsSort cmp rest)

/-- The comparator `(a, b) => b.distance - a.distance`.  It is only applied
to workout objects: the loop before the sort throws on `undefined`. -/
def compareDistance (a b : Entry) : JSNum :=
  match a, b with
  | some a, some b => JSNum.sub (toNumber b.distance) (toNumber a.distance)
  | _, _ => JSNum.nan

/-- The comparator `(a, b) => b.duration - a.duration`. -/
def compareDuration (a b : Entry) : JSNum :=
  match a, b with
  | some a, some b => JSNum.sub (toNumber b.duration) (toNumber a.duration)
  | _, _ => JSNum.nan

/-- The local array `workouts` of `_sortWorkoutByDistance` after its `sort`:
a copy of the store, sorted. -/
def sortedByDistance (workouts : List Entry) : List Entry :=
  jsSort compareDistance workouts

/-- The local array `workouts` of `_sortWorkoutByDuration` after its `sort`. -/
def sortedByDuration (workouts : List Entry) : List Entry :=
  jsSort compareDuration workouts

/-- Method `App._sortWorkoutByDistance`. -/
def _sortWorkoutByDistance (s : AppState) : Outcome :=
  (removeSweep s.workouts s).andThen fun s1 => renderSweep (sortedByDistance s.workouts) s1

/-- Method `App._sortWorkoutByDuration`. -/
def _sortWorkoutByDuration (s : AppState) : Outcome :=
  (removeSweep s.workouts s).andThen fun s1 => renderSweep (sortedByDuration s.workouts) s1

/-- The loop `forEach` of `_deleteAllWorkouts`. -/
def deleteAllSweep : List Entry → AppState → Outcome
  | [], s => Outcome.ok s
  | none :: _, s => Outcome.threw s
  | some workoutEl :: rest, s =>
    match removeListItem workoutEl.id s.rendered with
    | none => Outcome.threw s
    | some dom =>
      match _removeWorkoutMarker workoutEl { s with rendered := dom } with
      | Outcome.threw s1 => Outcome.threw s1
      | Outcome.ok s1 => deleteAllSweep rest s1

/-- Method `App._deleteAllWorkouts`. -/
def _deleteAllWorkouts (s : AppState) : Outcome :=
  (deleteAllSweep s.workouts s).andThen fun s1 =>
  Outcome.ok { s1 with workouts := [], storage := none,
                       storageLog := s1.storageLog ++ [StorageOp.removeItem] }

/-! ## Clicks on the list -/

/-- The element of a list item that a click hits: the menu icon, the label
`Edit`, the label `Delete`, or anything else inside the item. -/
inductive ClickTarget where
  | menuIcon : ClickTarget
  | editLabel : ClickTarget
  | deleteLabel : ClickTarget
  | elsewhere : ClickTarget
  deriving DecidableEq

/-- The call `this.#workouts.find((work) => work.id === id)`: `none` when the
callback throws on an `undefined` element, else the first match if any. -/
def findWorkout (id : String) : List Entry → Option (Option Workout)
  | [] => some none
  | none :: _ => none
  | some work :: rest => if work.id = id then some (some work) else findWorkout id rest

/-- Method `App._editWorkout`: opens the form (through `_renderForm` without an
event) and fills it with the values of the workout. -/
def _editWorkout (workout : Workout) (s : AppState) : AppState :=
  let s1 := _renderForm none s
  let form := { s1.form with distance := workout.distance, duration := workout.duration,
                             type := workout.type }
  if workout.type = "running" then
    { s1 with form := { form with cadence := workout.cadence.getD "undefined" } }
  else
    { s1 with form := { form with elevGain := workout.elevGain.getD "undefined" } }

/-- Method `App._menuClickhandle`: edits or deletes, then records the workout in
`#editObject` in both cases. -/
def _menuClickhandle (element : ClickTarget) (workout : Workout) (s : AppState) : Outcome :=
  let s1 := if element = ClickTarget.editLabel then _editWorkout workout s else s
  (if element = ClickTarget.deleteLabel then _deleteWorkout workout s1 else Outcome.ok s1).andThen
    fun s2 => Outcome.ok { s2 with editObject := some workout }

/-- Method `App._moveToLocation` for a click on `target` inside the list item
`workoutEl`.  The two labels carry the class of the kind the item was rendered
with, which the handler compares with the kind of the stored workout.  The
menu toggle and the change of the map view leave the modelled state as it
is. -/
def _moveToLocation (target : ClickTarget) (workoutEl : ListItem) (s : AppState) : Outcome :=
  match findWorkout workoutEl.dataId s.workouts with
  | none => Outcome.threw s
  | some none => Outcome.ok s
  | some (some workout) =>
    if target = ClickTarget.menuIcon then Outcome.ok s
    else if (target = ClickTarget.editLabel ∨ target = ClickTarget.deleteLabel) ∧
        workoutEl.type = workout.type then
      _menuClickhandle target workout s
    else Outcome.ok s

/-! ## Runs of the application -/

/-- What the user can do: click the map, type into the form, submit it (the
environment supplies the id and the date of the workout constructed), click
inside the rendered list item at a position, press a key, and use the four
entries of the side menu. -/
inductive Op where
  | mapClick (latlng : LatLng) : Op
  | fillForm (form : Form) : Op
  | submit (env : Env) : Op
  | clickItem (target : ClickTarget) (position : Nat) : Op
  | keydown (key : String) : Op
  | deleteAll : Op
  | sortDistance : Op
  | sortDuration : Op
  | recent : Op
  deriving DecidableEq

/-- The handler that an operation triggers, run once. -/
def dispatch (op : Op) (s : AppState) : Outcome :=
  match op with
  | Op.mapClick latlng => Outcome.ok (_renderForm (some latlng) s)
  | Op.fillForm form => Outcome.ok { s with form := form }
  | Op.submit env => _submitForm env s
  | Op.clickItem target position =>
    match s.rendered.get? position with
    | some workoutEl => _moveToLocation target workoutEl s
    | none => Outcome.ok s
  | Op.keydown key => Outcome.ok (_hideForm key s)
  | Op.deleteAll => _deleteAllWorkouts s
  | Op.sortDistance => _sortWorkoutByDistance s
  | Op.sortDuration => _sortWorkoutByDuration s
  | Op.recent => _backToNormal s

/-- The state after an operation: an exception ends the handler and the page
goes on with the state reached. -/
def step (s : AppState) (op : Op) : AppState :=
  (dispatch op s).state

/-- The state after a sequence of operations. -/
def run (ops : List Op) (s : AppState) : AppState :=
  ops.foldl step s

/-- The `data-id` values of the rendered list, top first. -/
def renderedIds (s : AppState) : List String :=
  s.rendered.map ListItem.dataId

/-- The ids of the workout objects of the store, in store order. -/
def storeIds (s : AppState) : List String :=
  s.workouts.filterMap (Option.map Workout.id)

/-! ## Predicates and scenarios used by the statements -/

/-- A stored element is a workout object whose distance and duration pass
the validation of the form. -/
def storedValid (e : Entry) : Bool :=
  match e with
  | some w => _formValidation [w.distance, w.duration]
  | none => false

/-- The numeric value of the distance of a stored workout (0 when the element
is not a workout with a finite distance). -/
def distanceKey (e : Entry) : ℚ :=
  match e with
  | some w =>
    match toNumber w.distance with
    | JSNum.fin x => x
    | _ => 0
  | none => 0

/-- The numeric value of the duration of a stored workout. -/
def durationKey (e : Entry) : ℚ :=
  match e with
  | some w =>
    match toNumber w.duration with
    | JSNum.fin x => x
    | _ => 0
  | none => 0

/-- What identifies a workout and never changes: id, creation date and
coordinates. -/
def Workout.identity (w : Workout) : String × JSDate × Coords :=
  (w.id, w.date, w.coords)

/-- The relation between a stored element before and after an edit of the
workout with id `editId`: same identity, and the same element altogether when
it is a workout with another id. -/
def editFrame (editId : String) (before after : Entry) : Prop :=
  Option.map Workout.identity after = Option.map Workout.identity before ∧
  ∀ w, before = some w → w.id ≠ editId → after = before

/-- A form filled for a run. -/
def runningForm (distance duration cadence : String) : Form :=
  { distance := distance, duration := duration, cadence := cadence, elevGain := "",
    type := "running" }

/-- A form filled for a ride. -/
def cyclingForm (distance duration elevGain : String) : Form :=
  { distance := distance, duration := duration, cadence := "", elevGain := elevGain,
    type := "cycling" }

/-- Four draws of the environment, with pairwise distinct ids. -/
def envA : Env := { id := "a1", date := { time := 1000, month := 3, day := 2 } }

/-- Second draw. -/
def envB : Env := { id := "b2", date := { time := 2000, month := 3, day := 2 } }

/-- Third draw. -/
def envC : Env := { id := "c3", date := { time := 3000, month := 3, day := 2 } }

/-- Fourth draw. -/
def envD : Env := { id := "d4", date := { time := 4000, month := 3, day := 2 } }

/-- A map click, the form filled, the form submitted. -/
def createOps (latlng : LatLng) (form : Form) (env : Env) : List Op :=
  [Op.mapClick latlng, Op.fillForm form, Op.submit env]

/-- One run of 5 km in 30 min created at `[10, 20]` from the initial state. -/
def oneStored : AppState :=
  run (createOps { lat := 10, lng := 20 } (runningForm "5" "30" "90") envA) (initialState none)

/-- Three workouts created one after the other from the initial state, with
distances 5, 2 and 8. -/
def threeStored : AppState :=
  run (createOps { lat := 10, lng := 20 } (runningForm "5" "30" "90") envA ++
       createOps { lat := 11, lng := 21 } (cyclingForm "2" "20" "80") envB ++
       createOps { lat := 12, lng := 22 } (runningForm "8" "40" "70") envC)
    (initialState none)

/-- The submitted form is valid for its kind. -/
def validForm (form : Form) : Prop :=
  (form.type = "running" ∧
    _formValidation [form.distance, form.duration, form.cadence] = true) ∨
  (form.type = "cycling" ∧
    _formValidation [form.distance, form.duration, form.elevGain] = true)

/-- The workout that a valid form builds. -/
def builtWorkout (env : Env) (coords : Coords) (form : Form) : Workout :=
  if form.type = "running" then Running env coords form.distance form.duration form.cadence
  else Cycling env coords form.distance form.duration form.elevGain

/-- A click on the label `Edit` of the list item at a position, the form
filled, the form submitted. -/
def editOps (position : Nat) (form : Form) (env : Env) : List Op :=
  [Op.clickItem ClickTarget.editLabel position, Op.fillForm form, Op.submit env]

/-- The ride stored second in `threeStored`. -/
def secondStored : Workout :=
  Cycling envB (some 11, some 21) "2" "20" "80"

/-- The state `threeStored` after a click on `Edit` of the second workout and
a form filled for a run. -/
def editingSecond : AppState :=
  run [Op.clickItem ClickTarget.editLabel 1, Op.fillForm (runningForm "9" "45" "60")] threeStored

/-- Fifth draw. -/
def envE : Env := { id := "e5", date := { time := 5000, month := 3, day := 2 } }

/-- Five workouts as the constructors build them, with ids `a1` to `e5`. -/
def fiveWorkouts : List Workout :=
  [Running envA (some 10, some 20) "5" "30" "90",
   Cycling envB (some 11, some 21) "2" "20" "80",
   Running envC (some 12, some 22) "8" "40" "70",
   Cycling envD (some 13, some 23) "3" "25" "60",
   Running envE (some 14, some 24) "6" "35" "50"]

/-- The state after five workouts were created one after the other from the
initial state. -/
def fiveStored : AppState :=
  run (createOps { lat := 10, lng := 20 } (runningForm "5" "30" "90") envA ++
       createOps { lat := 11, lng := 21 } (cyclingForm "2" "20" "80") envB ++
       createOps { lat := 12, lng := 22 } (runningForm "8" "40" "70") envC ++
       createOps { lat := 13, lng := 23 } (cyclingForm "3" "25" "60") envD ++
       createOps { lat := 14, lng := 24 } (runningForm "6" "35" "50") envE)
    (initialState none)

/-- The list item that `_renderWorkout` builds for a stored element, when it
builds one. -/
def renderedItem (e : Entry) : Option ListItem :=
  match e with
  | none => none
  | some w => (if w.type = "running" then w.pace else w.speed).map (listItemOf w)

/-- The distance that a list item displays, as a number (0 when it is not a
finite number). -/
def itemDistance (item : ListItem) : ℚ :=
  match toNumber item.distance with
  | JSNum.fin x => x
  | _ => 0

/-- A stored element is well formed: a workout with validated distance and
duration that has the rate of its kind (the pace of a run, the speed of a
ride). -/
def wellFormed (e : Entry) : Bool :=
  storedValid e && (renderedItem e).isSome

/-- The state reached from the initial state by creating a run of 5 km and a
ride of 2 km, deleting the ride through its label `Delete`, and then clicking
the map and submitting a valid run of 1 km. -/
def orphaned : AppState :=
  run (createOps { lat := 10, lng := 20 } (runningForm "5" "30" "90") envA ++
       createOps { lat := 11, lng := 21 } (cyclingForm "2" "20" "80") envB ++
       [Op.clickItem ClickTarget.deleteLabel 0] ++
       createOps { lat := 12, lng := 22 } (runningForm "1" "10" "90") envC)
    (initialState none)

/-- The state `editingSecond` after the valid submit of the edit: the second
workout is now a run of 9 km, and its list item was replaced by the item of
the object that the submit built, with the id `d4`. -/
def editedSecond : AppState :=
  step editingSecond (Op.submit envD)

/-- The state after two runs were created whose distances, `5` and
`5.0000000000000000001`, are the same double. -/
def tiedStored : AppState :=
  run (createOps { lat := 10, lng := 20 } (runningForm "5" "30" "90") envA ++
       createOps { lat := 11, lng := 21 }
         (runningForm "5.0000000000000000001" "20" "80") envB)
    (initialState none)

/-- Three workouts created one after the other from the initial state, with
distances 5, 2 and 8 and durations 20, 40 and 30, so that the order by
distance and the order by duration differ. -/
def crossStored : AppState :=
  run (createOps { lat := 10, lng := 20 } (runningForm "5" "20" "90") envA ++
       createOps { lat := 11, lng := 21 } (cyclingForm "2" "40" "80") envB ++
       createOps { lat := 12, lng := 22 } (runningForm "8" "30" "70") envC)
    (initialState none)

/-! ## Rounding to a double -/

section Rounding

open JSNum (pow2 floorLog2 roundHalfEven roundDouble log2Aux natLog2 zero inf fin negZero nan gt
  sub valueOf onGrid)

theorem pow2_eq_zpow (e : ℤ) : pow2 e = (2 : ℚ) ^ e := by
  unfold pow2
  split
  · rename_i h
    have he : e = (e.toNat : ℤ) := (Int.toNat_of_nonneg h).symm
    rw [Nat.cast_pow, Nat.cast_ofNat]
    conv_rhs => rw [he]
    rw [zpow_natCast]
  · rename_i h
    have hneg : 0 ≤ -e := by omega
    have he : e = -((-e).toNat : ℤ) := by rw [Int.toNat_of_nonneg hneg]; ring
    rw [Nat.cast_pow, Nat.cast_ofNat]
    conv_rhs => rw [he]
    rw [zpow_neg, zpow_natCast, one_div]

theorem pow2_pos (e : ℤ) : 0 < pow2 e := by
  rw [pow2_eq_zpow]
  exact zpow_pos (by norm_num) e

theorem pow2_mono {a b : ℤ} (h : a ≤ b) : pow2 a ≤ pow2 b := by
  rw [pow2_eq_zpow, pow2_eq_zpow]
  exact zpow_le_zpow_right₀ (by norm_num) h

theorem pow2_add (a b : ℤ) : pow2 (a + b) = pow2 a * pow2 b := by
  rw [pow2_eq_zpow, pow2_eq_zpow, pow2_eq_zpow, zpow_add₀ (by norm_num)]

theorem log2Aux_bounds (fuel n : Nat) (hfuel : n ≤ fuel) (hn : 0 < n) :
    2 ^ log2Aux fuel n ≤ n ∧ n < 2 ^ (log2Aux fuel n + 1) := by
  induction fuel generalizing n with
  | zero => omega
  | succ fuel ih =>
    unfold log2Aux
    by_cases h2 : n < 2
    · simp only [h2, if_true]
      omega
    · simp only [h2, if_false]
      have hhalf : 0 < n / 2 := Nat.div_pos (by omega) (by norm_num)
      have hle : n / 2 ≤ fuel := by
        have : n / 2 < n := Nat.div_lt_self hn (by norm_num)
        omega
      obtain ⟨h1, h3⟩ := ih (n / 2) hle hhalf
      constructor
      · calc 2 ^ (log2Aux fuel (n / 2) + 1) = 2 * 2 ^ log2Aux fuel (n / 2) := by ring
          _ ≤ 2 * (n / 2) := Nat.mul_le_mul_left 2 h1
          _ ≤ n := Nat.mul_div_le n 2
      · have : n < 2 * (n / 2 + 1) := by omega
        calc n < 2 * (n / 2 + 1) := this
          _ ≤ 2 * 2 ^ (log2Aux fuel (n / 2) + 1) := Nat.mul_le_mul_left 2 h3
          _ = 2 ^ (log2Aux fuel (n / 2) + 1 + 1) := by ring

theorem natLog2_bounds (n : Nat) (hn : 0 < n) :
    2 ^ natLog2 n ≤ n ∧ n < 2 ^ (natLog2 n + 1) :=
  log2Aux_bounds n n (le_refl n) hn

theorem floorLog2_le (q : ℚ) (hq : 0 < q) : pow2 (floorLog2 q) ≤ q := by
  unfold floorLog2
  split
  · assumption
  · have hnum : 0 < q.num := Rat.num_pos.mpr hq
    have hn : 0 < q.num.natAbs := Int.natAbs_pos.mpr (ne_of_gt hnum)
    have hd : 0 < q.den := q.den_pos
    obtain ⟨hlow, _⟩ := natLog2_bounds q.num.natAbs hn
    obtain ⟨_, hup⟩ := natLog2_bounds q.den hd
    have hqeq : q = (q.num.natAbs : ℚ) / (q.den : ℚ) := by
      have h2 : (q.num.natAbs : ℚ) = (q.num : ℚ) := by
        have h1 : (q.num.natAbs : ℤ) = q.num := Int.natAbs_of_nonneg (le_of_lt hnum)
        calc (q.num.natAbs : ℚ) = ((q.num.natAbs : ℤ) : ℚ) := (Int.cast_natCast _).symm
          _ = (q.num : ℚ) := by rw [h1]
      rw [h2]
      exact (Rat.num_div_den q).symm
    have hlowQ : (2 : ℚ) ^ natLog2 q.num.natAbs ≤ (q.num.natAbs : ℚ) := by
      exact_mod_cast hlow
    have hupQ : (q.den : ℚ) ≤ (2 : ℚ) ^ (natLog2 q.den + 1) := by
      exact_mod_cast le_of_lt hup
    have hdQ : (0 : ℚ) < (q.den : ℚ) := by exact_mod_cast hd
    have hexp : ((natLog2 q.num.natAbs : ℤ) - (natLog2 q.den : ℤ) - 1) =
        (natLog2 q.num.natAbs : ℤ) - ((natLog2 q.den + 1 : ℕ) : ℤ) := by
      push_cast
      ring
    rw [pow2_eq_zpow, hexp, zpow_sub₀ (by norm_num), zpow_natCast, zpow_natCast]
    conv_rhs => rw [hqeq]
    exact div_le_div (Nat.cast_nonneg _) hlowQ hdQ hupQ

theorem floorLog2_lt (q : ℚ) (hq : 0 < q) : q < pow2 (floorLog2 q + 1) := by
  unfold floorLog2
  split
  · have hnum : 0 < q.num := Rat.num_pos.mpr hq
    have hn : 0 < q.num.natAbs := Int.natAbs_pos.mpr (ne_of_gt hnum)
    have hd : 0 < q.den := q.den_pos
    obtain ⟨_, hup⟩ := natLog2_bounds q.num.natAbs hn
    obtain ⟨hlow, _⟩ := natLog2_bounds q.den hd
    have hqeq : q = (q.num.natAbs : ℚ) / (q.den : ℚ) := by
      have h2 : (q.num.natAbs : ℚ) = (q.num : ℚ) := by
        have h1 : (q.num.natAbs : ℤ) = q.num := Int.natAbs_of_nonneg (le_of_lt hnum)
        calc (q.num.natAbs : ℚ) = ((q.num.natAbs : ℤ) : ℚ) := (Int.cast_natCast _).symm
          _ = (q.num : ℚ) := by rw [h1]
      rw [h2]
      exact (Rat.num_div_den q).symm
    have hupQ : (q.num.natAbs : ℚ) < (2 : ℚ) ^ (natLog2 q.num.natAbs + 1) := by
      exact_mod_cast hup
    have hlowQ : (2 : ℚ) ^ natLog2 q.den ≤ (q.den : ℚ) := by
      exact_mod_cast hlow
    have hpow : (0 : ℚ) < (2 : ℚ) ^ natLog2 q.den := by positivity
    have hexp : ((natLog2 q.num.natAbs : ℤ) - (natLog2 q.den : ℤ) + 1) =
        ((natLog2 q.num.natAbs + 1 : ℕ) : ℤ) - (natLog2 q.den : ℤ) := by
      push_cast
      ring
    rw [pow2_eq_zpow, hexp, zpow_sub₀ (by norm_num), zpow_natCast, zpow_natCast]
    conv_lhs => rw [hqeq]
    exact div_lt_div hupQ hlowQ (by positivity) hpow
  · rename_i h
    have : (natLog2 q.num.natAbs : ℤ) - (natLog2 q.den : ℤ) - 1 + 1 =
        (natLog2 q.num.natAbs : ℤ) - (natLog2 q.den : ℤ) := by ring
    rw [this]
    exact not_le.mp h

theorem roundHalfEven_ge_floor (r : ℚ) : ⌊r⌋ ≤ roundHalfEven r := by
  unfold roundHalfEven
  split
  · exact le_refl _
  · split
    · omega
    · split
      · exact le_refl _
      · omega

theorem roundHalfEven_nonneg (r : ℚ) (hr : 0 ≤ r) : 0 ≤ roundHalfEven r :=
  le_trans (Int.floor_nonneg.mpr hr) (roundHalfEven_ge_floor r)

theorem roundHalfEven_pos (r : ℚ) (hr : 1 ≤ r) : 1 ≤ roundHalfEven r :=
  le_trans (Int.le_floor.mpr (by exact_mod_cast hr)) (roundHalfEven_ge_floor r)

theorem roundDouble_cases (q : ℚ) (hq : q ≠ 0) :
    ∃ (e m : ℤ), -1074 ≤ e ∧ 0 ≤ m ∧ (pow2 (-1074) ≤ |q| → 1 ≤ m) ∧
      (roundDouble q = inf (decide (q < 0)) ∨
       (m = 0 ∧ roundDouble q = zero (decide (q < 0))) ∨
       (m ≠ 0 ∧ roundDouble q =
          fin (if q < 0 then -((m : ℚ) * pow2 e) else (m : ℚ) * pow2 e))) := by
  have habs : 0 < |q| := abs_pos.mpr hq
  refine ⟨max (floorLog2 |q| - 52) (-1074),
    roundHalfEven (|q| / pow2 (max (floorLog2 |q| - 52) (-1074))),
    le_max_right _ _, ?_, ?_, ?_⟩
  · exact roundHalfEven_nonneg _ (div_nonneg habs.le (pow2_pos _).le)
  · intro hsmall
    apply roundHalfEven_pos
    rw [le_div_iff₀ (pow2_pos _), one_mul]
    rcases max_choice (floorLog2 |q| - 52) (-1074) with h | h
    · rw [h]
      exact le_trans (pow2_mono (by omega)) (floorLog2_le |q| habs)
    · rw [h]
      exact hsmall
  · unfold roundDouble
    simp only [hq, if_false]
    split
    · exact Or.inl rfl
    · split
      · rename_i hzero
        refine Or.inr (Or.inl ⟨?_, rfl⟩)
        rcases mul_eq_zero.mp hzero with h | h
        · exact_mod_cast h
        · exact absurd h (ne_of_gt (pow2_pos _))
      · rename_i hzero
        refine Or.inr (Or.inr ⟨?_, ?_⟩)
        · intro hm
          apply hzero
          rw [hm]
          simp
        · split <;> simp_all

theorem pow2_grid (e : ℤ) (he : -1074 ≤ e) :
    pow2 e = (((2 ^ (e + 1074).toNat : ℕ) : ℤ) : ℚ) * pow2 (-1074) := by
  have hsplit : e = (e + 1074) + (-1074) := by ring
  conv_lhs => rw [hsplit, pow2_add]
  congr 1
  have hnonneg : 0 ≤ e + 1074 := by omega
  unfold pow2
  simp only [hnonneg, if_true]
  norm_cast

theorem roundDouble_onGrid (q v : ℚ) (h : roundDouble q = fin v) : onGrid v := by
  by_cases hq : q = 0
  · rw [hq] at h
    have h0 : roundDouble 0 = fin 0 := by simp [roundDouble]
    rw [h0] at h
    injection h with h
    exact ⟨0, by rw [← h]; simp⟩
  · obtain ⟨e, m, he, _, _, hcase⟩ := roundDouble_cases q hq
    rcases hcase with h1 | ⟨_, h1⟩ | ⟨_, h1⟩
    · rw [h1] at h
      cases h
    · rw [h1] at h
      unfold zero at h
      split at h
      · cases h
      · injection h with h
        exact ⟨0, by rw [← h]; simp⟩
    · rw [h1] at h
      injection h with h
      rw [← h, pow2_grid e he]
      split
      · exact ⟨-(m * ((2 ^ (e + 1074).toNat : ℕ) : ℤ)), by push_cast; ring⟩
      · exact ⟨m * ((2 ^ (e + 1074).toNat : ℕ) : ℤ), by push_cast; ring⟩

theorem roundDouble_gt_zero (q : ℚ) (hq : pow2 (-1074) ≤ q) :
    gt (roundDouble q) (fin 0) = true := by
  have hpos : 0 < q := lt_of_lt_of_le (pow2_pos _) hq
  have hnot : ¬ q < 0 := not_lt.mpr hpos.le
  obtain ⟨e, m, _, hm0, hm1, hcase⟩ := roundDouble_cases q (ne_of_gt hpos)
  have hm : 1 ≤ m := hm1 (by rw [abs_of_pos hpos]; exact hq)
  rcases hcase with h1 | ⟨h0, _⟩ | ⟨_, h1⟩
  · rw [h1]
    simp [gt, hnot]
  · omega
  · rw [h1]
    simp only [hnot, if_false, gt, valueOf, decide_eq_true_eq]
    apply mul_pos _ (pow2_pos e)
    exact_mod_cast (by omega : 0 < m)

theorem roundDouble_not_gt_zero (q : ℚ) (hq : q < 0) :
    gt (roundDouble q) (fin 0) = false := by
  obtain ⟨e, m, _, hm0, _, hcase⟩ := roundDouble_cases q (ne_of_lt hq)
  rcases hcase with h1 | ⟨_, h1⟩ | ⟨_, h1⟩
  · rw [h1]
    simp [gt, hq]
  · rw [h1]
    simp [gt, zero, hq, valueOf]
  · rw [h1]
    simp only [hq, if_true, gt, valueOf, decide_eq_false_iff_not, not_lt]
    have : 0 ≤ (m : ℚ) * pow2 e := mul_nonneg (by exact_mod_cast hm0) (pow2_pos e).le
    linarith

theorem sub_gt_zero (x y : ℚ) (hx : onGrid x) (hy : onGrid y) :
    gt (sub (fin y) (fin x)) (fin 0) = decide (x < y) := by
  rcases lt_trichotomy x y with h | h | h
  · have hne : y - x ≠ 0 := sub_ne_zero.mpr (ne_of_gt h)
    obtain ⟨kx, hkx⟩ := hx
    obtain ⟨ky, hky⟩ := hy
    have hk : kx < ky := by
      by_contra hcon
      have hle : ky ≤ kx := not_lt.mp hcon
      have : y ≤ x := by
        rw [hkx, hky]
        exact mul_le_mul_of_nonneg_right (by exact_mod_cast hle) (pow2_pos _).le
      exact absurd h (not_lt.mpr this)
    have hbig : pow2 (-1074) ≤ y - x := by
      rw [hkx, hky, ← sub_mul]
      have h1 : (1 : ℚ) ≤ (ky : ℚ) - (kx : ℚ) := by
        have : 1 ≤ ky - kx := by omega
        exact_mod_cast this
      calc pow2 (-1074) = 1 * pow2 (-1074) := (one_mul _).symm
        _ ≤ ((ky : ℚ) - (kx : ℚ)) * pow2 (-1074) :=
          mul_le_mul_of_nonneg_right h1 (pow2_pos _).le
    simp only [sub, valueOf, hne, if_false, h, decide_True]
    exact roundDouble_gt_zero _ hbig
  · subst h
    simp [sub, valueOf, gt]
  · have hne : y - x ≠ 0 := sub_ne_zero.mpr (ne_of_lt h)
    have hneg : y - x < 0 := sub_neg.mpr h
    have hnot : ¬ x < y := not_lt.mpr h.le
    simp only [sub, valueOf, hne, if_false, hnot, decide_False]
    exact roundDouble_not_gt_zero _ hneg

theorem zero_onGrid : onGrid 0 :=
  ⟨0, by simp⟩

theorem radixLiteral_onGrid (radix : Nat) (cs : List Char) (v : ℚ)
    (h : radixLiteral radix cs = fin v) : onGrid v := by
  unfold radixLiteral at h
  split at h
  · split at h
    · cases h
    · exact roundDouble_onGrid _ v h
  · cases h

theorem signedBody_onGrid (negative : Bool) (cs : List Char) (v : ℚ)
    (h : signedBody negative cs = fin v) : onGrid v := by
  unfold signedBody at h
  split at h
  · cases h
  · split at h
    · split at h
      · unfold zero at h
        split at h
        · cases h
        · injection h with h
          rw [← h]
          exact zero_onGrid
      · exact roundDouble_onGrid _ v h
    · cases h

theorem parseTrimmed_onGrid (cs : List Char) (v : ℚ)
    (h : parseTrimmed cs = fin v) : onGrid v := by
  unfold parseTrimmed at h
  split at h
  · injection h with h
    rw [← h]
    exact zero_onGrid
  all_goals first
    | exact radixLiteral_onGrid _ _ v h
    | exact signedBody_onGrid _ _ v h

theorem toNumber_onGrid (s : String) (v : ℚ) (h : toNumber s = fin v) : onGrid v :=
  parseTrimmed_onGrid _ v h

end Rounding

/-! ## Validation -/

theorem validField_iff (field : String) :
    ((toNumber field).isFinite && (toNumber field).gt (JSNum.fin 0) &&
      (toNumber field).lt (JSNum.fin 100)) = true ↔
    ∃ v : ℚ, toNumber field = JSNum.fin v ∧ 0 < v ∧ v < 100 := by
  cases h : toNumber field with
  | nan => simp [JSNum.isFinite]
  | inf b => simp [JSNum.isFinite]
  | negZero => simp [JSNum.isFinite, JSNum.gt, JSNum.valueOf]
  | fin q => simp [JSNum.isFinite, JSNum.gt, JSNum.lt, JSNum.valueOf]

theorem formValidation_eq_true_iff (formFields : List String) :
    _formValidation formFields = true ↔
    ∀ field ∈ formFields, ∃ v : ℚ, toNumber field = JSNum.fin v ∧ 0 < v ∧ v < 100 := by
  unfold _formValidation
  rw [List.all_eq_true]
  exact forall_congr' fun field => imp_congr_right fun _ => validField_iff field

theorem toNumber_empty : toNumber "" = JSNum.fin 0 := by decide

/-- C6: `_formValidation` accepts a list of fields exactly when every field
parses to a finite number strictly between 0 and 100; it rejects a list with
a field that is empty, is not a number, or is a number that is at most 0 or at
least 100. -/
theorem formValidation_spec (formFields : List String) :
    (_formValidation formFields = true ↔
      ∀ field ∈ formFields, ∃ v : ℚ, toNumber field = JSNum.fin v ∧ 0 < v ∧ v < 100) ∧
    (∀ field ∈ formFields,
      (field = "" ∨ toNumber field = JSNum.nan ∨
        ∃ v : ℚ, toNumber field = JSNum.fin v ∧ (v ≤ 0 ∨ 100 ≤ v)) →
      _formValidation formFields = false) := by
  refine ⟨formValidation_eq_true_iff formFields, ?_⟩
  intro field hmem hbad
  rw [← Bool.not_eq_true]
  intro hvalid
  obtain ⟨v, hv, h0, h100⟩ := (formValidation_eq_true_iff formFields).mp hvalid field hmem
  rcases hbad with h | h | ⟨u, hu, h⟩
  · subst h
    rw [toNumber_empty] at hv
    injection hv with hv
    rw [← hv] at h0
    exact lt_irrefl _ h0
  · rw [h] at hv
    cases hv
  · rw [hu] at hv
    injection hv with hv
    subst hv
    rcases h with h | h
    · exact absurd h0 (not_lt.mpr h)
    · exact absurd h100 (not_lt.mpr h)

/-- Instances of C6: three valid fields are accepted; the empty field, a
word, zero, a negative number and one hundred are each rejected, and so are
`1e-400`, which is 0 as a double, and `99.99999999999999999`, which is 100 as
a double. -/
theorem formValidation_spec_witness :
    _formValidation ["5", "30", "99.5"] = true ∧
    _formValidation ["5", "", "30"] = false ∧
    _formValidation ["5", "abc", "30"] = false ∧
    _formValidation ["0", "30", "30"] = false ∧
    _formValidation ["5", "30", "-5"] = false ∧
    _formValidation ["5", "30", "100"] = false ∧
    _formValidation ["5", "30", "1e-400"] = false ∧
    _formValidation ["5", "30", "99.99999999999999999"] = false :=
  ⟨(formValidation_spec ["5", "30", "99.5"]).1.mpr (by
      intro field hmem
      simp only [List.mem_cons, List.mem_singleton, List.not_mem_nil, or_false] at hmem
      rcases hmem with h | h | h
      · exact ⟨5, by subst h; decide!, by norm_num, by norm_num⟩
      · exact ⟨30, by subst h; decide!, by norm_num, by norm_num⟩
      · exact ⟨199 / 2, by subst h; decide!, by norm_num, by norm_num⟩),
   (formValidation_spec ["5", "", "30"]).2 "" (by simp) (Or.inl rfl),
   (formValidation_spec ["5", "abc", "30"]).2 "abc" (by simp) (Or.inr (Or.inl (by decide!))),
   (formValidation_spec ["0", "30", "30"]).2 "0" (by simp)
      (Or.inr (Or.inr ⟨0, by decide!, Or.inl (le_refl _)⟩)),
   (formValidation_spec ["5", "30", "-5"]).2 "-5" (by simp)
      (Or.inr (Or.inr ⟨-5, by decide!, Or.inl (by norm_num)⟩)),
   (formValidation_spec ["5", "30", "100"]).2 "100" (by simp)
      (Or.inr (Or.inr ⟨100, by decide!, Or.inr (le_refl _)⟩)),
   (formValidation_spec ["5", "30", "1e-400"]).2 "1e-400" (by simp)
      (Or.inr (Or.inr ⟨0, by decide!, Or.inl (le_refl _)⟩)),
   (formValidation_spec ["5", "30", "99.99999999999999999"]).2 "99.99999999999999999"
      (by simp) (Or.inr (Or.inr ⟨100, by decide!, Or.inr (le_refl _)⟩))⟩

/-! ## Construction of records -/

theorem setDescription_desc_ne_empty (w : Workout) : (_setDescription w).desc ≠ "" := by
  intro h
  have hlen := congrArg String.length h
  simp only [_setDescription, String.length_append] at hlen
  have h4 : " on ".length = 4 := by decide
  have h0 : "".length = 0 := by decide
  omega

/-- C8: for distance, duration and metric inputs whose values lie strictly
between 0 and 100, the constructor of `Running` sets the pace to the quotient
duration / distance of the two numbers (the double nearest to the exact
quotient) and a non-empty description, and the constructor of `Cycling` sets
the speed to distance / (duration / 60), where duration / 60 is again the
double nearest to the exact quotient. -/
theorem constructors_derive (env : Env) (coords : Coords)
    (distance duration metric : String) (x y z : ℚ)
    (hd : toNumber distance = JSNum.fin x) (hx : 0 < x ∧ x < 100)
    (ht : toNumber duration = JSNum.fin y) (hy : 0 < y ∧ y < 100)
    (_hm : toNumber metric = JSNum.fin z) (_hz : 0 < z ∧ z < 100) :
    (Running env coords distance duration metric).pace =
      some (JSNum.div (JSNum.fin y) (JSNum.fin x)) ∧
    JSNum.div (JSNum.fin y) (JSNum.fin x) = JSNum.roundDouble (y / x) ∧
    (Running env coords distance duration metric).desc ≠ "" ∧
    (Cycling env coords distance duration metric).speed =
      some (JSNum.div (JSNum.fin x) (JSNum.div (JSNum.fin y) (JSNum.fin 60))) ∧
    JSNum.div (JSNum.fin y) (JSNum.fin 60) = JSNum.roundDouble (y / 60) := by
  have hx0 : x ≠ 0 := ne_of_gt hx.1
  have hy0 : y ≠ 0 := ne_of_gt hy.1
  have h60 : (60 : ℚ) ≠ 0 := by norm_num
  refine ⟨?_, ?_, ?_, ?_, ?_⟩
  · simp [Running, calcPace, _setDescription, Workout.base, hd, ht]
  · simp [JSNum.div, JSNum.valueOf, hx0, hy0]
  · exact setDescription_desc_ne_empty _
  · simp [Cycling, calcSpeed, _setDescription, Workout.base, hd, ht]
  · simp [JSNum.div, JSNum.valueOf, h60, hy0]

/-- Instance of C8: distance 3 and duration 25 give the speed
7.199999999999999 (the double `2026619832316723 / 2 ^ 48`) for a ride and the
pace `25 / 3` rounded to a double for a run; distance 5 and duration 30 give
pace 6 and speed 10; distance `1e-323` and duration 99 give an infinite
pace. -/
theorem constructors_derive_witness :
    toNumber "3" = JSNum.fin 3 ∧ toNumber "25" = JSNum.fin 25 ∧ toNumber "90" = JSNum.fin 90 ∧
    JSNum.div (JSNum.fin 3) (JSNum.div (JSNum.fin 25) (JSNum.fin 60)) =
      JSNum.fin (2026619832316723 / 281474976710656) ∧
    (Cycling ⟨"a1", ⟨1000, 3, 2⟩⟩ (some 10, some 20) "3" "25" "90").speed =
      some (JSNum.fin (2026619832316723 / 281474976710656)) ∧
    (Running ⟨"a1", ⟨1000, 3, 2⟩⟩ (some 10, some 20) "5" "30" "90").pace =
      some (JSNum.fin 6) ∧
    (Cycling ⟨"a1", ⟨1000, 3, 2⟩⟩ (some 10, some 20) "5" "30" "90").speed =
      some (JSNum.fin 10) ∧
    _formValidation ["1e-323", "99", "90"] = true ∧
    (Running ⟨"a1", ⟨1000, 3, 2⟩⟩ (some 10, some 20) "1e-323" "99" "90").pace =
      some (JSNum.inf false) ∧
    ((Running ⟨"a1", ⟨1000, 3, 2⟩⟩ (some 10, some 20) "3" "25" "90").pace =
        some (JSNum.div (JSNum.fin 25) (JSNum.fin 3)) ∧
      JSNum.div (JSNum.fin 25) (JSNum.fin 3) = JSNum.roundDouble (25 / 3) ∧
      (Running ⟨"a1", ⟨1000, 3, 2⟩⟩ (some 10, some 20) "3" "25" "90").desc ≠ "" ∧
      (Cycling ⟨"a1", ⟨1000, 3, 2⟩⟩ (some 10, some 20) "3" "25" "90").speed =
        some (JSNum.div (JSNum.fin 3) (JSNum.div (JSNum.fin 25) (JSNum.fin 60))) ∧
      JSNum.div (JSNum.fin 25) (JSNum.fin 60) = JSNum.roundDouble (25 / 60)) :=
  ⟨by decide!, by decide!, by decide!, by decide!, by decide!, by decide!, by decide!,
   by decide!, by decide!,
   constructors_derive ⟨"a1", ⟨1000, 3, 2⟩⟩ (some 10, some 20) "3" "25" "90" 3 25 90
    (by decide!) (by norm_num) (by decide!) (by norm_num) (by decide!) (by norm_num)⟩

/-! ## Sorting -/

theorem sortInsert_perm (cmp : Entry → Entry → JSNum) (a : Entry) (l : List Entry) :
    (sortInsert cmp a l).Perm (a :: l) := by
  induction l with
  | nil => exact List.Perm.refl _
  | cons b rest ih =>
    unfold sortInsert
    split
    · exact ((List.Perm.cons b ih).trans (List.Perm.swap a b rest))
    · exact List.Perm.refl _

theorem jsSort_perm (cmp : Entry → Entry → JSNum) (l : List Entry) :
    (jsSort cmp l).Perm l := by
  induction l with
  | nil => exact List.Perm.refl _
  | cons a rest ih =>
    unfold jsSort
    exact (sortInsert_perm cmp a _).trans (List.Perm.cons a ih)

theorem sortInsert_sorted (cmp : Entry → Entry → JSNum) (key : Entry → ℚ) (good : Entry → Prop)
    (hcmp : ∀ a b, good a → good b → (cmp a b).gt (JSNum.fin 0) = decide (key a < key b))
    (a : Entry) (ha : good a) (l : List Entry) (hl : ∀ e ∈ l, good e)
    (hs : l.Pairwise fun p q => key q ≤ key p) :
    (sortInsert cmp a l).Pairwise fun p q => key q ≤ key p := by
  induction l with
  | nil => simp [sortInsert]
  | cons b rest ih =>
    have hb : good b := hl b (List.mem_cons_self _ _)
    have hrest : ∀ e ∈ rest, good e := fun e he => hl e (List.mem_cons_of_mem _ he)
    rw [List.pairwise_cons] at hs
    unfold sortInsert
    rw [hcmp a b ha hb]
    by_cases hlt : key a < key b
    · simp only [hlt, decide_True, if_true]
      rw [List.pairwise_cons]
      refine ⟨?_, ih hrest hs.2⟩
      intro q hq
      rcases List.mem_cons.mp ((sortInsert_perm cmp a rest).subset hq) with h | h
      · rw [h]
        exact le_of_lt hlt
      · exact hs.1 q h
    · simp only [hlt, decide_False, Bool.false_eq_true, if_false]
      have hba : key b ≤ key a := not_lt.mp hlt
      rw [List.pairwise_cons]
      refine ⟨?_, List.pairwise_cons.mpr hs⟩
      intro q hq
      rcases List.mem_cons.mp hq with h | h
      · rw [h]
        exact hba
      · exact le_trans (hs.1 q h) hba

theorem jsSort_sorted (cmp : Entry → Entry → JSNum) (key : Entry → ℚ) (good : Entry → Prop)
    (hcmp : ∀ a b, good a → good b → (cmp a b).gt (JSNum.fin 0) = decide (key a < key b))
    (l : List Entry) (hl : ∀ e ∈ l, good e) :
    (jsSort cmp l).Pairwise fun p q => key q ≤ key p := by
  induction l with
  | nil => simp [jsSort]
  | cons a rest ih =>
    unfold jsSort
    have hrest : ∀ e ∈ rest, good e := fun e he => hl e (List.mem_cons_of_mem _ he)
    exact sortInsert_sorted cmp key good hcmp a (hl a (List.mem_cons_self _ _)) _
      (fun e he => hrest e ((jsSort_perm cmp rest).subset he)) (ih hrest)

theorem storedValid_distance (e : Entry) (h : storedValid e = true) :
    ∃ w, e = some w ∧ toNumber w.distance = JSNum.fin (distanceKey e) := by
  cases e with
  | none => simp [storedValid] at h
  | some w =>
    obtain ⟨v, hv, _, _⟩ :=
      (formValidation_eq_true_iff _).mp h w.distance (List.mem_cons_self _ _)
    exact ⟨w, rfl, by simp [distanceKey, hv]⟩

theorem storedValid_duration (e : Entry) (h : storedValid e = true) :
    ∃ w, e = some w ∧ toNumber w.duration = JSNum.fin (durationKey e) := by
  cases e with
  | none => simp [storedValid] at h
  | some w =>
    obtain ⟨v, hv, _, _⟩ :=
      (formValidation_eq_true_iff _).mp h w.duration
        (List.mem_cons_of_mem _ (List.mem_cons_self _ _))
    exact ⟨w, rfl, by simp [durationKey, hv]⟩

theorem compareDistance_gt (a b : Entry) (ha : storedValid a = true) (hb : storedValid b = true) :
    (compareDistance a b).gt (JSNum.fin 0) = decide (distanceKey a < distanceKey b) := by
  obtain ⟨wa, rfl, hka⟩ := storedValid_distance a ha
  obtain ⟨wb, rfl, hkb⟩ := storedValid_distance b hb
  simp only [compareDistance, hka, hkb]
  exact sub_gt_zero _ _ (toNumber_onGrid _ _ hka) (toNumber_onGrid _ _ hkb)

theorem compareDuration_gt (a b : Entry) (ha : storedValid a = true) (hb : storedValid b = true) :
    (compareDuration a b).gt (JSNum.fin 0) = decide (durationKey a < durationKey b) := by
  obtain ⟨wa, rfl, hka⟩ := storedValid_duration a ha
  obtain ⟨wb, rfl, hkb⟩ := storedValid_duration b hb
  simp only [compareDuration, hka, hkb]
  exact sub_gt_zero _ _ (toNumber_onGrid _ _ hka) (toNumber_onGrid _ _ hkb)

/-! ### Handlers that leave the store alone -/

theorem renderWorkout_workouts (e : Entry) (s : AppState) :
    (_renderWorkout e s).state.workouts = s.workouts := by
  unfold _renderWorkout
  split
  · rfl
  · split <;> rfl

theorem removeSweep_workouts (l : List Entry) (s : AppState) :
    (removeSweep l s).state.workouts = s.workouts := by
  induction l generalizing s with
  | nil => rfl
  | cons e rest ih =>
    cases e with
    | none => rfl
    | some w =>
      unfold removeSweep
      split
      · rfl
      · rw [ih]

theorem renderSweep_workouts (l : List Entry) (s : AppState) :
    (renderSweep l s).state.workouts = s.workouts := by
  induction l generalizing s with
  | nil => rfl
  | cons e rest ih =>
    unfold renderSweep
    have h := renderWorkout_workouts e s
    split
    · rename_i s1 heq
      rw [heq] at h
      exact h
    · rename_i s1 heq
      rw [heq] at h
      rw [ih]
      exact h

theorem andThen_workouts (o : Outcome) (f : AppState → Outcome)
    (hf : ∀ s, (f s).state.workouts = s.workouts) :
    (o.andThen f).state.workouts = o.state.workouts := by
  cases o with
  | ok s => exact hf s
  | threw s => rfl

/-! ## Editing: what a submit leaves untouched -/

theorem editFrame_refl (editId : String) (e : Entry) : editFrame editId e e :=
  ⟨rfl, fun _ _ _ => rfl⟩

theorem forall₂_editFrame_refl (editId : String) (l : List Entry) :
    List.Forall₂ (editFrame editId) l l := by
  induction l with
  | nil => exact List.Forall₂.nil
  | cons e rest ih => exact List.Forall₂.cons (editFrame_refl editId e) ih

theorem patchWorkout_identity (workoutEl workout : Workout) :
    (patchWorkout workoutEl workout).identity = workoutEl.identity := by
  unfold patchWorkout Workout.identity
  split <;> rfl

theorem editSweep_frame (editId : String) (workout : Entry) (l : List Entry)
    (dom : List ListItem) :
    List.Forall₂ (editFrame editId) l (editSweep editId workout l dom).1 := by
  induction l generalizing dom with
  | nil => exact List.Forall₂.nil
  | cons e rest ih =>
    cases e with
    | none => exact forall₂_editFrame_refl editId _
    | some workoutEl =>
      unfold editSweep
      by_cases hid : workoutEl.id = editId
      · simp only [hid, if_true]
        cases hrem : removeListItem editId dom with
        | none => exact forall₂_editFrame_refl editId _
        | some dom1 =>
          cases workout with
          | none => exact forall₂_editFrame_refl editId _
          | some w =>
            refine List.Forall₂.cons ⟨?_, ?_⟩ (ih dom1)
            · simp only [Option.map_some', patchWorkout_identity]
            · intro w0 hw0 hne
              injection hw0 with hw0
              rw [← hw0] at hne
              exact absurd hid hne
      · simp only [hid, if_false]
        exact List.Forall₂.cons (editFrame_refl editId _) (ih dom)

theorem renderWorkoutMarker_workouts (e : Entry) (s : AppState) :
    (_renderWorkoutMarker e s).state.workouts = s.workouts := by
  unfold _renderWorkoutMarker
  split
  · rfl
  · split <;> rfl

theorem submitForm_workouts (env : Env) (s : AppState) :
    (_submitForm env s).state.workouts =
      (submitStore (submitBuild env s).1 { s with form := (submitBuild env s).2 }).state.workouts := by
  unfold _submitForm
  simp only []
  rw [andThen_workouts]
  intro s1
  rw [andThen_workouts, renderWorkoutMarker_workouts]
  intro s2
  rw [andThen_workouts, renderWorkout_workouts]
  intro s3
  rfl

theorem submitStore_edit_workouts (workout : Entry) (s : AppState) (editObject : Workout)
    (h : s.editObject = some editObject) :
    (submitStore workout s).state.workouts =
      (editSweep editObject.id workout s.workouts s.rendered).1 := by
  unfold submitStore
  rw [h]
  simp only []
  rcases hres : editSweep editObject.id workout s.workouts s.rendered with ⟨ws, dom, done⟩
  cases done <;> rfl

/-- C9: when `_submitForm` runs with a workout recorded for editing, the
store after the submit matches the store before it position by position:
every element keeps its id, creation date and coordinates, and every workout
whose id is not the id of the edited workout is unchanged.  This holds
whatever the submitted kind is, so also for an edit that turns a run into a
ride. -/
theorem edit_submit_frame (env : Env) (s : AppState) (editObject : Workout)
    (hedit : s.editObject = some editObject) :
    List.Forall₂ (editFrame editObject.id) s.workouts (_submitForm env s).state.workouts := by
  have hstore := submitStore_edit_workouts (submitBuild env s).1
    { s with form := (submitBuild env s).2 } editObject hedit
  rw [submitForm_workouts, hstore]
  exact editSweep_frame editObject.id _ s.workouts s.rendered

/-! ## Creating a workout -/

theorem submitBuild_valid (env : Env) (s : AppState) (hvalid : validForm s.form) :
    (submitBuild env s).1 = some (builtWorkout env (submitCoords s) s.form) := by
  have hne : ("running" : String) ≠ "cycling" := by decide
  rcases hvalid with ⟨ht, hv⟩ | ⟨ht, hv⟩
  · simp [submitBuild, submitRunning, submitCycling, builtWorkout, ht, hv, hne]
  · simp [submitBuild, submitRunning, submitCycling, builtWorkout, ht, hv, hne.symm]

theorem builtWorkout_coords (env : Env) (coords : Coords) (form : Form) :
    (builtWorkout env coords form).coords = coords := by
  unfold builtWorkout
  split <;> rfl

theorem builtWorkout_id (env : Env) (coords : Coords) (form : Form) :
    (builtWorkout env coords form).id = env.id := by
  unfold builtWorkout
  split <;> rfl

theorem renderWorkout_built (env : Env) (coords : Coords) (form : Form) :
    ∃ item, ∀ s : AppState, _renderWorkout (some (builtWorkout env coords form)) s =
      Outcome.ok { s with rendered := item :: s.rendered } := by
  have hne : ("cycling" : String) ≠ "running" := by decide
  unfold builtWorkout
  split
  · refine ⟨listItemOf (Running env coords form.distance form.duration form.cadence)
      (JSNum.div (toNumber form.duration) (toNumber form.distance)), fun s => ?_⟩
    simp only [_renderWorkout, Running, calcPace, _setDescription, Workout.base, if_true]
  · refine ⟨listItemOf (Cycling env coords form.distance form.duration form.elevGain)
      (JSNum.div (toNumber form.distance) (JSNum.div (toNumber form.duration) (JSNum.fin 60))),
      fun s => ?_⟩
    simp only [_renderWorkout, Cycling, calcSpeed, _setDescription, Workout.base, hne, if_false]

theorem submitForm_create (env : Env) (s : AppState) (latlng : LatLng)
    (hedit : s.editObject = none) (hmap : s.mapEvent = some latlng) (hvalid : validForm s.form) :
    ∃ item, _submitForm env s = Outcome.ok
      { s with
        form := (submitBuild env s).2,
        workouts := s.workouts ++
          [some (builtWorkout env (some latlng.lat, some latlng.lng) s.form)],
        formHidden := true,
        markers := s.markers ++ [(some latlng.lat, some latlng.lng)],
        rendered := item :: s.rendered,
        storage := some (s.workouts ++
          [some (builtWorkout env (some latlng.lat, some latlng.lng) s.form)]),
        storageLog := s.storageLog ++ [StorageOp.removeItem, StorageOp.setItem (s.workouts ++
          [some (builtWorkout env (some latlng.lat, some latlng.lng) s.form)])] } := by
  have hcoords : submitCoords s = (some latlng.lat, some latlng.lng) := by
    simp [submitCoords, hedit, hmap]
  have hbuild := submitBuild_valid env s hvalid
  rw [hcoords] at hbuild
  obtain ⟨item, hitem⟩ := renderWorkout_built env (some latlng.lat, some latlng.lng) s.form
  refine ⟨item, ?_⟩
  unfold _submitForm
  simp only [hbuild, submitStore, hedit, Outcome.andThen, _renderWorkoutMarker,
    builtWorkout_coords, hitem, _setWorkoutLocalStorage]

/-- C5 (amended): in a state where no workout is recorded in `#editObject`, a
map click followed by a valid form submit appends exactly one new workout to
the end of the store, with the clicked coordinate as its coordinates and the
stored elements before it unchanged, and then writes the store to
`localStorage`. -/
theorem create_appends_and_saves (s : AppState) (latlng : LatLng) (form : Form) (env : Env)
    (hedit : s.editObject = none) (hvalid : validForm form) :
    ∃ w : Workout,
      w = builtWorkout env (some latlng.lat, some latlng.lng) form ∧
      w.coords = (some latlng.lat, some latlng.lng) ∧
      (run (createOps latlng form env) s).workouts = s.workouts ++ [some w] ∧
      (run (createOps latlng form env) s).storage = some (s.workouts ++ [some w]) ∧
      (run (createOps latlng form env) s).storageLog =
        s.storageLog ++ [StorageOp.removeItem, StorageOp.setItem (s.workouts ++ [some w])] := by
  refine ⟨_, rfl, builtWorkout_coords _ _ _, ?_⟩
  obtain ⟨item, hitem⟩ := submitForm_create env
    { _renderForm (some latlng) s with form := form } latlng hedit rfl hvalid
  simp only [run, createOps, List.foldl, step, dispatch, Outcome.state, hitem]
  exact ⟨rfl, rfl, rfl⟩

/-! ## Concrete runs -/

/-- C1: after one valid create and one valid edit from the initial state the
store holds the workout with id `a1` while the only rendered item carries the
id `d4` of the object built by the edit; after a create and a delete, a
further valid create leaves the store empty while its item is rendered.  In
both runs every handler ran to its end. -/
theorem rendered_list_diverges_from_store :
    (dispatch (Op.submit envD)
      (run [Op.clickItem ClickTarget.editLabel 0, Op.fillForm (runningForm "10" "30" "90")]
        oneStored)).completed = true ∧
    storeIds (run (editOps 0 (runningForm "10" "30" "90") envD) oneStored) = ["a1"] ∧
    renderedIds (run (editOps 0 (runningForm "10" "30" "90") envD) oneStored) = ["d4"] ∧
    (dispatch (Op.clickItem ClickTarget.deleteLabel 0) oneStored).completed = true ∧
    (dispatch (Op.submit envB)
      (run [Op.clickItem ClickTarget.deleteLabel 0, Op.mapClick { lat := 1, lng := 2 },
            Op.fillForm (runningForm "7" "70" "80")] oneStored)).completed = true ∧
    storeIds (run (Op.clickItem ClickTarget.deleteLabel 0 ::
      createOps { lat := 1, lng := 2 } (runningForm "7" "70" "80") envB) oneStored) = [] ∧
    renderedIds (run (Op.clickItem ClickTarget.deleteLabel 0 ::
      createOps { lat := 1, lng := 2 } (runningForm "7" "70" "80") envB) oneStored) = ["b2"] := by
  decide!

/-- C2: a create submit whose distance is `"0"` fails validation, yet
`_submitForm` appends `undefined` to the empty store before it throws; nothing
is written to `localStorage`. -/
theorem invalid_create_changes_store :
    _formValidation ["0", "30", "90"] = false ∧
    (run [Op.mapClick { lat := 10, lng := 20 }, Op.fillForm (runningForm "0" "30" "90")]
      (initialState none)).workouts = [] ∧
    (_submitForm envA
      (run [Op.mapClick { lat := 10, lng := 20 }, Op.fillForm (runningForm "0" "30" "90")]
        (initialState none))).state.workouts = [none] ∧
    (_submitForm envA
      (run [Op.mapClick { lat := 10, lng := 20 }, Op.fillForm (runningForm "0" "30" "90")]
        (initialState none))).completed = false ∧
    (_submitForm envA
      (run [Op.mapClick { lat := 10, lng := 20 }, Op.fillForm (runningForm "0" "30" "90")]
        (initialState none))).state.storageLog = [] := by
  decide!

/-- C3: in a store of three workouts with ids `a1`, `b2`, `c3`, each with its
list item, `_deleteWorkout` on the second one leaves only `a1` in the store
and in `localStorage`: two workouts are gone, and `c3` with them. -/
theorem delete_middle_removes_two :
    storeIds threeStored = ["a1", "b2", "c3"] ∧
    renderedIds threeStored = ["c3", "b2", "a1"] ∧
    threeStored.workouts.get? 1 = some (some secondStored) ∧
    (_deleteWorkout secondStored threeStored).completed = true ∧
    storeIds (_deleteWorkout secondStored threeStored).state = ["a1"] ∧
    (_deleteWorkout secondStored threeStored).state.storage =
      some (threeStored.workouts.take 1) := by
  decide!

/-- C4: after a valid edit of the stored run (5 km, 30 min, pace 6) into a
ride of 10 km in 30 min, the stored object has the new distance, metric and
kind but no speed, its old pace 6 and its old description; after a valid edit
into a run of 10 km in 30 min the stored pace is still 6, not 3. -/
theorem edit_keeps_derived_values :
    (run (editOps 0 (cyclingForm "10" "30" "50") envD) oneStored).workouts.map
      (Option.map Workout.distance) = [some "10"] ∧
    (run (editOps 0 (cyclingForm "10" "30" "50") envD) oneStored).workouts.map
      (Option.map Workout.type) = [some "cycling"] ∧
    (run (editOps 0 (cyclingForm "10" "30" "50") envD) oneStored).workouts.map
      (Option.map Workout.elevGain) = [some (some "50")] ∧
    (run (editOps 0 (cyclingForm "10" "30" "50") envD) oneStored).workouts.map
      (Option.map Workout.speed) = [some none] ∧
    (run (editOps 0 (cyclingForm "10" "30" "50") envD) oneStored).workouts.map
      (Option.map Workout.pace) = [some (some (JSNum.fin 6))] ∧
    (run (editOps 0 (cyclingForm "10" "30" "50") envD) oneStored).workouts.map
      (Option.map Workout.desc) = [some "Running on April 2"] ∧
    (run (editOps 0 (runningForm "10" "30" "90") envD) oneStored).workouts.map
      (Option.map Workout.distance) = [some "10"] ∧
    (run (editOps 0 (runningForm "10" "30" "90") envD) oneStored).workouts.map
      (Option.map Workout.pace) = [some (some (JSNum.fin 6))] ∧
    JSNum.div (toNumber "30") (toNumber "10") = JSNum.fin 3 := by
  decide!

/-- C5 as stated fails: the submit with distance 5, duration 30 and cadence
160 is rejected by the validation (160 is not below 100) and leaves no
workout in the store; and after an edit, a map click and a valid submit do
not append a workout. -/
theorem create_claim_fails :
    _formValidation ["5", "30", "160"] = false ∧
    (run (createOps { lat := 10, lng := 20 } (runningForm "5" "30" "160") envA)
      (initialState none)).workouts = [none] ∧
    (run (createOps { lat := 10, lng := 20 } (runningForm "5" "30" "160") envA)
      (initialState none)).storage = none ∧
    storeIds (run (editOps 0 (runningForm "10" "30" "90") envD ++
      createOps { lat := 1, lng := 2 } (runningForm "7" "70" "80") envB) oneStored) = ["a1"] := by
  decide!

/-- Instance of the amended C5: from the initial state, a click at `[10, 20]`
and the submit of distance 5, duration 30, cadence 90 give a store of one
workout with pace 6, saved to `localStorage`. -/
theorem create_appends_and_saves_witness :
    (initialState none).editObject = none ∧
    validForm (runningForm "5" "30" "90") ∧
    oneStored.workouts.map (Option.map Workout.coords) = [some (some 10, some 20)] ∧
    oneStored.workouts.map (Option.map Workout.pace) = [some (some (JSNum.fin 6))] ∧
    ∃ w : Workout,
      w = builtWorkout envA (some 10, some 20) (runningForm "5" "30" "90") ∧
      w.coords = (some 10, some 20) ∧
      (run (createOps { lat := 10, lng := 20 } (runningForm "5" "30" "90") envA)
        (initialState none)).workouts = (initialState none).workouts ++ [some w] ∧
      (run (createOps { lat := 10, lng := 20 } (runningForm "5" "30" "90") envA)
        (initialState none)).storage = some ((initialState none).workouts ++ [some w]) ∧
      (run (createOps { lat := 10, lng := 20 } (runningForm "5" "30" "90") envA)
        (initialState none)).storageLog =
        (initialState none).storageLog ++
          [StorageOp.removeItem, StorageOp.setItem ((initialState none).workouts ++ [some w])] :=
  ⟨rfl, Or.inl ⟨rfl, by decide!⟩, by decide!, by decide!,
   create_appends_and_saves (initialState none) { lat := 10, lng := 20 }
     (runningForm "5" "30" "90") envA rfl (Or.inl ⟨rfl, by decide!⟩)⟩

/-- C7: with three stored workouts that all have their list item, both sort
handlers run to their end, render the store sorted and leave the store as it
was (distances 5, 2, 8 are sorted into 8, 5, 2; with durations 20, 40, 30
the two handlers render different orders).  After a valid edit of the
second workout the store holds the distances 5, 9, 8 and the list holds the
items `d4`, `c3`, `a1`; both sort handlers then throw in the loop that comes
before the `sort`, on the missing list item of `b2`: nothing is sorted, and
the list is left with the items `d4` and `c3`. -/
theorem sort_stops_after_edit :
    threeStored.workouts.map distanceKey = [5, 2, 8] ∧
    (sortedByDistance threeStored.workouts).map distanceKey = [8, 5, 2] ∧
    (_sortWorkoutByDistance threeStored).completed = true ∧
    renderedIds (_sortWorkoutByDistance threeStored).state = ["b2", "a1", "c3"] ∧
    (_sortWorkoutByDistance threeStored).state.workouts = threeStored.workouts ∧
    (sortedByDuration threeStored.workouts).map durationKey = [40, 30, 20] ∧
    (_sortWorkoutByDuration threeStored).completed = true ∧
    renderedIds (_sortWorkoutByDuration threeStored).state = ["b2", "a1", "c3"] ∧
    (_sortWorkoutByDuration threeStored).state.workouts = threeStored.workouts ∧
    crossStored.workouts.map durationKey = [20, 40, 30] ∧
    (sortedByDistance crossStored.workouts).map distanceKey = [8, 5, 2] ∧
    (sortedByDuration crossStored.workouts).map durationKey = [40, 30, 20] ∧
    renderedIds crossStored = ["c3", "b2", "a1"] ∧
    renderedIds (_sortWorkoutByDistance crossStored).state = ["b2", "a1", "c3"] ∧
    renderedIds (_sortWorkoutByDuration crossStored).state = ["a1", "c3", "b2"] ∧
    (_sortWorkoutByDuration crossStored).state.workouts = crossStored.workouts ∧
    (dispatch (Op.submit envD) editingSecond).completed = true ∧
    storeIds editedSecond = ["a1", "b2", "c3"] ∧
    editedSecond.workouts.map distanceKey = [5, 9, 8] ∧
    editedSecond.workouts.map durationKey = [30, 45, 40] ∧
    renderedIds editedSecond = ["d4", "c3", "a1"] ∧
    (_sortWorkoutByDistance editedSecond).completed = false ∧
    renderedIds (_sortWorkoutByDistance editedSecond).state = ["d4", "c3"] ∧
    (_sortWorkoutByDistance editedSecond).state.workouts = editedSecond.workouts ∧
    (_sortWorkoutByDuration editedSecond).completed = false ∧
    renderedIds (_sortWorkoutByDuration editedSecond).state = ["d4", "c3"] ∧
    (_sortWorkoutByDuration editedSecond).state.workouts = editedSecond.workouts := by
  decide!

/-- Instance of C9: the second of three stored workouts, a ride, is edited
into a run; the three ids, dates and coordinates are as before, the first and
the third workout are unchanged, and the second one has become a run. -/
theorem edit_submit_frame_witness :
    editingSecond.editObject = some secondStored ∧
    validForm editingSecond.form ∧
    (_submitForm envD editingSecond).completed = true ∧
    (_submitForm envD editingSecond).state.workouts.map (Option.map Workout.type)
      = [some "running", some "running", some "running"] ∧
    threeStored.workouts.map (Option.map Workout.type)
      = [some "running", some "cycling", some "running"] ∧
    List.Forall₂ (editFrame secondStored.id) editingSecond.workouts
      (_submitForm envD editingSecond).state.workouts :=
  ⟨by decide!, Or.inl ⟨by decide!, by decide!⟩, by decide!, by decide!, by decide!,
   edit_submit_frame envD editingSecond secondStored (by decide!)⟩

/-- C10: in the state reached by three valid creates and one valid edit of
the second workout, `_deleteAllWorkouts` throws on the list item that the
edit replaced: the store still holds the three workouts and the entry in
`localStorage` is still there. -/
theorem delete_all_stops_after_edit :
    (dispatch (Op.submit envD) editingSecond).completed = true ∧
    storeIds (step editingSecond (Op.submit envD)) = ["a1", "b2", "c3"] ∧
    renderedIds (step editingSecond (Op.submit envD)) = ["d4", "c3", "a1"] ∧
    (_deleteAllWorkouts (step editingSecond (Op.submit envD))).completed = false ∧
    storeIds (_deleteAllWorkouts (step editingSecond (Op.submit envD))).state
      = ["a1", "b2", "c3"] ∧
    (_deleteAllWorkouts (step editingSecond (Op.submit envD))).state.storage ≠ none := by
  decide!

/-! ## The sweep of `_deleteWorkout` -/

theorem removeListItem_of_mem (id : String) (dom : List ListItem)
    (h : id ∈ dom.map ListItem.dataId) :
    ∃ dom1, removeListItem id dom = some dom1 ∧ dom1.length + 1 = dom.length ∧
      dom1.map ListItem.dataId = (dom.map ListItem.dataId).erase id := by
  induction dom with
  | nil => simp at h
  | cons item rest ih =>
    unfold removeListItem
    by_cases hid : item.dataId = id
    · refine ⟨rest, by simp [hid], rfl, ?_⟩
      simp [hid]
    · have hmem : id ∈ rest.map ListItem.dataId := by
        rcases List.mem_cons.mp h with h1 | h1
        · exact absurd h1.symm hid
        · exact h1
      obtain ⟨dom1, hrem, hlen, hids⟩ := ih hmem
      refine ⟨item :: dom1, by simp [hid, hrem], by simp [hlen], ?_⟩
      have hne : (item.dataId == id) = false := by simpa using hid
      simp [List.erase_cons, hne, hids]

theorem deleteSweep_skip (id : String) (todo idx : Nat) (s : AppState) (x : Workout)
    (hget : s.workouts.get? idx = some (some x)) (hne : x.id ≠ id) :
    deleteSweep id (todo + 1) idx s = deleteSweep id todo (idx + 1) s := by
  rw [deleteSweep, hget]
  simp only [hne, if_false]

theorem deleteSweep_absent (id : String) (todo idx : Nat) (s : AppState)
    (hget : s.workouts.get? idx = none) :
    deleteSweep id (todo + 1) idx s = deleteSweep id todo (idx + 1) s := by
  rw [deleteSweep, hget]

theorem deleteSweep_no_match (id : String) (s : AppState)
    (hall : ∀ e ∈ s.workouts, ∃ x : Workout, e = some x ∧ x.id ≠ id) (todo idx : Nat) :
    deleteSweep id todo idx s = Outcome.ok s := by
  induction todo generalizing idx with
  | zero => rfl
  | succ todo ih =>
    cases hget : s.workouts.get? idx with
    | none => rw [deleteSweep_absent id todo idx s hget, ih]
    | some e =>
      have hmem : e ∈ s.workouts := List.get?_mem hget
      obtain ⟨x, rfl, hne⟩ := hall e hmem
      rw [deleteSweep_skip id todo idx s x hget hne, ih]

theorem deleteSweep_prefix (id : String) (s : AppState) (todo : Nat) (d idx : Nat)
    (hpre : ∀ j, idx ≤ j → j < idx + d →
      ∃ x : Workout, s.workouts.get? j = some (some x) ∧ x.id ≠ id) :
    deleteSweep id (d + todo) idx s = deleteSweep id todo (idx + d) s := by
  induction d generalizing idx with
  | zero => simp
  | succ d ih =>
    obtain ⟨x, hget, hne⟩ := hpre idx (le_refl _) (by omega)
    have hstep : d + 1 + todo = (d + todo) + 1 := by omega
    rw [hstep, deleteSweep_skip id (d + todo) idx s x hget hne, ih (idx + 1)]
    · congr 1
      omega
    · intro j h1 h2
      exact hpre j (by omega) (by omega)

theorem ids_ne_of_nodup (ws : List Workout) (i : Nat) (w : Workout)
    (hnodup : (ws.map Workout.id).Nodup) (hi : ws.get? i = some w) :
    (∀ x ∈ ws.take i, x.id ≠ w.id) ∧ (∀ x ∈ ws.drop (i + 1), x.id ≠ w.id) := by
  rw [List.get?_eq_getElem?, List.getElem?_eq_some] at hi
  obtain ⟨hlt, hw⟩ := hi
  have hsplit : ws = ws.take i ++ w :: ws.drop (i + 1) := by
    rw [← hw, ← List.drop_eq_getElem_cons hlt, List.take_append_drop]
  rw [hsplit, List.map_append, List.map_cons, List.nodup_append] at hnodup
  obtain ⟨_, hright, hdisj⟩ := hnodup
  rw [List.nodup_cons] at hright
  constructor
  · intro x hx heq
    exact hdisj (List.mem_map_of_mem Workout.id hx) (by rw [heq]; exact List.mem_cons_self _ _)
  · intro x hx heq
    exact hright.1 (by rw [← heq]; exact List.mem_map_of_mem Workout.id hx)

theorem removeWorkoutMarker_workouts (w : Workout) (s : AppState) :
    (_removeWorkoutMarker w s).state.workouts = s.workouts := by
  unfold _removeWorkoutMarker
  split
  · rfl
  · split <;> rfl

theorem removeWorkoutMarker_fixed (w : Workout) (s : AppState) :
    (_removeWorkoutMarker w s).state.rendered = s.rendered ∧
    (_removeWorkoutMarker w s).state.storage = s.storage ∧
    (_removeWorkoutMarker w s).state.storageLog = s.storageLog := by
  unfold _removeWorkoutMarker
  split
  · exact ⟨rfl, rfl, rfl⟩
  · split <;> exact ⟨rfl, rfl, rfl⟩

theorem deleteSweep_at_index (s : AppState) (ws : List Workout) (i : Nat) (w : Workout)
    (dom : List ListItem)
    (hstore : s.workouts = ws.map some)
    (hnodup : (ws.map Workout.id).Nodup)
    (hi : ws.get? i = some w)
    (hdom : removeListItem w.id s.rendered = some dom) :
    deleteSweep w.id s.workouts.length 0 s =
      _removeWorkoutMarker w
        { s with rendered := dom, workouts := (ws.take i ++ ws.drop (2 * i + 1)).map some } := by
  obtain ⟨hbefore, hafter⟩ := ids_ne_of_nodup ws i w hnodup hi
  have hlt : i < ws.length := by
    rw [List.get?_eq_getElem?, List.getElem?_eq_some] at hi
    exact hi.1
  obtain ⟨m, hm⟩ : ∃ m, ws.length = i + (m + 1) := ⟨ws.length - i - 1, by omega⟩
  -- the indices below `i` hold other ids
  have hpre : ∀ j, 0 ≤ j → j < 0 + i →
      ∃ x : Workout, s.workouts.get? j = some (some x) ∧ x.id ≠ w.id := by
    intro j _ hj
    have hji : j < i := by omega
    have hjl : j < ws.length := by omega
    refine ⟨ws[j], ?_, ?_⟩
    · rw [hstore, List.get?_eq_getElem?, List.getElem?_map, List.getElem?_eq_getElem hjl]
      rfl
    · apply hbefore
      have : (ws.take i)[j]? = some ws[j] := by
        rw [List.getElem?_take_of_lt hji, List.getElem?_eq_getElem hjl]
      exact List.getElem?_mem this
  have hgeti : s.workouts.get? (0 + i) = some (some w) := by
    rw [hstore, Nat.zero_add, List.get?_eq_getElem?, List.getElem?_map,
      ← List.get?_eq_getElem?, hi]
    rfl
  -- what is left after the splice holds other ids
  have hrest : ∀ e ∈ (ws.take i ++ ws.drop (2 * i + 1)).map some,
      ∃ x : Workout, e = some x ∧ x.id ≠ w.id := by
    intro e he
    obtain ⟨x, hx, rfl⟩ := List.mem_map.mp he
    refine ⟨x, rfl, ?_⟩
    rcases List.mem_append.mp hx with h | h
    · exact hbefore x h
    · apply hafter x
      have hdd : ws.drop (2 * i + 1) = (ws.drop (i + 1)).drop i := by
        rw [List.drop_drop]
        congr 1
        omega
      rw [hdd] at h
      exact List.mem_of_mem_drop h
  have hsplice : s.workouts.take (0 + i) ++ s.workouts.drop (0 + i + (0 + i + 1)) =
      (ws.take i ++ ws.drop (2 * i + 1)).map some := by
    rw [hstore, List.map_append, List.map_take, List.map_drop]
    congr 2 <;> omega
  rw [hstore, List.length_map, hm, deleteSweep_prefix w.id s (m + 1) i 0 hpre,
    deleteSweep, hgeti]
  simp only [if_true, hdom, hsplice]
  have hw := removeWorkoutMarker_workouts w
    { s with rendered := dom, workouts := (ws.take i ++ ws.drop (2 * i + 1)).map some }
  cases hout : _removeWorkoutMarker w
    { s with rendered := dom, workouts := (ws.take i ++ ws.drop (2 * i + 1)).map some } with
  | threw s2 => rfl
  | ok s2 =>
    rw [hout] at hw
    simp only []
    apply deleteSweep_no_match
    intro e he
    have hw2 : s2.workouts = (ws.take i ++ ws.drop (2 * i + 1)).map some := hw
    rw [hw2] at he
    exact hrest e he

theorem findWorkout_id (id : String) (l : List Entry) (w : Workout)
    (h : findWorkout id l = some (some w)) : w.id = id := by
  induction l with
  | nil => simp [findWorkout] at h
  | cons e rest ih =>
    cases e with
    | none => simp [findWorkout] at h
    | some x =>
      unfold findWorkout at h
      by_cases hx : x.id = id
      · simp only [hx, if_true] at h
        injection h with h
        injection h with h
        rw [← h]
        exact hx
      · simp only [hx, if_false] at h
        exact ih h

theorem clicked_workout_is_rendered (s : AppState) (workoutEl : ListItem) (w : Workout)
    (hel : workoutEl ∈ s.rendered)
    (hfind : findWorkout workoutEl.dataId s.workouts = some (some w)) :
    w.id ∈ renderedIds s := by
  rw [findWorkout_id _ _ _ hfind]
  exact List.mem_map_of_mem ListItem.dataId hel

/-- C11: in a store of workouts with pairwise distinct ids, `_deleteWorkout`
on the workout at index `i`, called while the list item of that workout is
rendered, leaves the first `i` workouts followed by those that were at the
indices `2 * i + 1` and above: it removes the `min (i + 1) (n - i)` workouts at
the indices from `i` to `2 * i` and the rest of the sweep removes nothing.
When the coordinates of the workout are numbers the handler runs to its end,
and what it writes to `localStorage` is the resulting store. -/
theorem deleteWorkout_removes_range (s : AppState) (ws : List Workout) (i : Nat) (w : Workout)
    (hstore : s.workouts = ws.map some)
    (hnodup : (ws.map Workout.id).Nodup)
    (hi : ws.get? i = some w)
    (hitem : w.id ∈ renderedIds s) :
    (_deleteWorkout w s).state.workouts = (ws.take i ++ ws.drop (2 * i + 1)).map some ∧
    (ws.take i ++ ws.drop (2 * i + 1)).length + min (i + 1) (ws.length - i) = ws.length ∧
    ((∃ lat lng, w.coords = (some lat, some lng)) →
      (_deleteWorkout w s).completed = true ∧
      (_deleteWorkout w s).state.storage = some ((ws.take i ++ ws.drop (2 * i + 1)).map some) ∧
      (_deleteWorkout w s).state.storageLog = s.storageLog ++ [StorageOp.removeItem,
        StorageOp.setItem ((ws.take i ++ ws.drop (2 * i + 1)).map some)]) := by
  obtain ⟨dom, hdom, _, _⟩ := removeListItem_of_mem w.id s.rendered hitem
  have hsweep := deleteSweep_at_index s ws i w dom hstore hnodup hi hdom
  refine ⟨?_, ?_, ?_⟩
  · unfold _deleteWorkout
    rw [andThen_workouts, hsweep, removeWorkoutMarker_workouts]
    intro s1
    rfl
  · rw [List.length_append, List.length_take, List.length_drop]
    omega
  · rintro ⟨lat, lng, hc⟩
    unfold _deleteWorkout
    rw [hsweep]
    simp only [_removeWorkoutMarker, hc, Outcome.andThen, Outcome.completed, Outcome.state,
      _setWorkoutLocalStorage]
    exact ⟨trivial, trivial, trivial⟩

/-! ## The order of the list after a sort -/

theorem renderWorkout_eq (e : Entry) (s : AppState) :
    _renderWorkout e s =
      match renderedItem e with
      | some item => Outcome.ok { s with rendered := item :: s.rendered }
      | none => Outcome.threw s := by
  cases e with
  | none => rfl
  | some w =>
    simp only [_renderWorkout, renderedItem]
    cases hrate : (if w.type = "running" then w.pace else w.speed) <;> rfl

theorem renderSweep_all (l : List Entry) (s : AppState)
    (h : ∀ e ∈ l, (renderedItem e).isSome = true) :
    renderSweep l s =
      Outcome.ok { s with rendered := l.reverse.filterMap renderedItem ++ s.rendered } := by
  induction l generalizing s with
  | nil => rfl
  | cons e rest ih =>
    have he := h e (List.mem_cons_self _ _)
    obtain ⟨item, hitem⟩ := Option.isSome_iff_exists.mp he
    unfold renderSweep
    rw [renderWorkout_eq, hitem]
    simp only []
    rw [ih _ (fun x hx => h x (List.mem_cons_of_mem _ hx))]
    simp [List.filterMap_append, hitem]

theorem removeSweep_all (l : List Entry) (s : AppState)
    (hsome : ∀ e ∈ l, e.isSome = true)
    (hsub : (l.filterMap (Option.map Workout.id)).Subperm (renderedIds s)) :
    ∃ rest, removeSweep l s = Outcome.ok { s with rendered := rest } ∧
      rest.length + l.length = s.rendered.length := by
  induction l generalizing s with
  | nil => exact ⟨s.rendered, rfl, rfl⟩
  | cons e tl ih =>
    obtain ⟨w, rfl⟩ := Option.isSome_iff_exists.mp (hsome e (List.mem_cons_self _ _))
    have hids : (some w :: tl).filterMap (Option.map Workout.id) =
        w.id :: tl.filterMap (Option.map Workout.id) := by
      simp
    rw [hids] at hsub
    have hmem : w.id ∈ s.rendered.map ListItem.dataId :=
      hsub.subset (List.mem_cons_self _ _)
    obtain ⟨dom, hdom, hlen, hdomIds⟩ := removeListItem_of_mem w.id s.rendered hmem
    have hsub1 : (tl.filterMap (Option.map Workout.id)).Subperm
        (renderedIds { s with rendered := dom }) := by
      have := List.Subperm.erase w.id hsub
      rw [List.erase_cons_head] at this
      unfold renderedIds at this ⊢
      rw [hdomIds]
      exact this
    obtain ⟨rest, hrest, hrlen⟩ := ih { s with rendered := dom }
      (fun x hx => hsome x (List.mem_cons_of_mem _ hx)) hsub1
    refine ⟨rest, ?_, ?_⟩
    · unfold removeSweep
      rw [hdom]
      exact hrest
    · simp only [List.length_cons]
      simp only [] at hrlen
      omega

theorem renderedItem_distance (l : List Entry)
    (h : ∀ e ∈ l, (renderedItem e).isSome = true) :
    (l.filterMap renderedItem).map itemDistance = l.map distanceKey := by
  induction l with
  | nil => rfl
  | cons e rest ih =>
    have he := h e (List.mem_cons_self _ _)
    obtain ⟨item, hitem⟩ := Option.isSome_iff_exists.mp he
    have hrest := ih (fun x hx => h x (List.mem_cons_of_mem _ hx))
    cases e with
    | none => simp [renderedItem] at hitem
    | some w =>
      have hd : itemDistance item = distanceKey (some w) := by
        simp only [renderedItem, Option.map_eq_some'] at hitem
        obtain ⟨rate, _, hrate⟩ := hitem
        rw [← hrate]
        rfl
      simp [List.filterMap_cons, hitem, hd, hrest]

theorem renderedItem_ids (l : List Entry)
    (h : ∀ e ∈ l, (renderedItem e).isSome = true) :
    (l.filterMap renderedItem).map ListItem.dataId = l.filterMap (Option.map Workout.id) := by
  induction l with
  | nil => rfl
  | cons e rest ih =>
    have he := h e (List.mem_cons_self _ _)
    obtain ⟨item, hitem⟩ := Option.isSome_iff_exists.mp he
    have hrest := ih (fun x hx => h x (List.mem_cons_of_mem _ hx))
    cases e with
    | none => simp [renderedItem] at hitem
    | some w =>
      have hd : item.dataId = w.id := by
        simp only [renderedItem, Option.map_eq_some'] at hitem
        obtain ⟨rate, _, hrate⟩ := hitem
        rw [← hrate]
        rfl
      simp [List.filterMap_cons, hitem, hd, hrest]

theorem wellFormed_parts (e : Entry) (h : wellFormed e = true) :
    storedValid e = true ∧ (renderedItem e).isSome = true ∧ e.isSome = true := by
  unfold wellFormed at h
  rw [Bool.and_eq_true] at h
  refine ⟨h.1, h.2, ?_⟩
  cases e with
  | none => simp [storedValid] at h
  | some w => rfl

theorem ids_length_of_all_some (l : List Entry) (h : ∀ e ∈ l, e.isSome = true) :
    (l.filterMap (Option.map Workout.id)).length = l.length := by
  induction l with
  | nil => rfl
  | cons e rest ih =>
    obtain ⟨w, rfl⟩ := Option.isSome_iff_exists.mp (h e (List.mem_cons_self _ _))
    simp [ih (fun x hx => h x (List.mem_cons_of_mem _ hx))]

theorem removeSweep_in_sync (s : AppState)
    (hsome : ∀ e ∈ s.workouts, e.isSome = true)
    (hsync : (storeIds s).Perm (renderedIds s)) :
    removeSweep s.workouts s = Outcome.ok { s with rendered := [] } := by
  obtain ⟨rest, hrest, hlen⟩ := removeSweep_all s.workouts s hsome hsync.subperm
  have h1 := hsync.length_eq
  unfold storeIds renderedIds at h1
  rw [ids_length_of_all_some s.workouts hsome, List.length_map] at h1
  have h0 : rest = [] := List.length_eq_zero.mp (by omega)
  rw [hrest, h0]

/-- C12 (amended): for a store of well-formed workouts whose rendered list
holds exactly one item per stored workout, `_sortWorkoutByDistance` runs to
its end and leaves the list as the reverse of the descending sorted sequence,
so the distances read from top to bottom are non-decreasing; and
`_backToNormal` leaves the list as the store in reverse insertion order. -/
theorem sort_shows_ascending (s : AppState)
    (hwf : ∀ e ∈ s.workouts, wellFormed e = true)
    (hsync : (storeIds s).Perm (renderedIds s)) :
    _sortWorkoutByDistance s = Outcome.ok
      { s with rendered := (sortedByDistance s.workouts).reverse.filterMap renderedItem } ∧
    renderedIds (_sortWorkoutByDistance s).state =
      ((sortedByDistance s.workouts).filterMap (Option.map Workout.id)).reverse ∧
    (_sortWorkoutByDistance s).state.rendered.map itemDistance =
      ((sortedByDistance s.workouts).map distanceKey).reverse ∧
    ((_sortWorkoutByDistance s).state.rendered.map itemDistance).Pairwise (· ≤ ·) ∧
    _backToNormal s = Outcome.ok { s with rendered := s.workouts.reverse.filterMap renderedItem } ∧
    renderedIds (_backToNormal s).state = (storeIds s).reverse := by
  have hsome : ∀ e ∈ s.workouts, e.isSome = true := fun e he => (wellFormed_parts e (hwf e he)).2.2
  have hrend : ∀ e ∈ s.workouts, (renderedItem e).isSome = true :=
    fun e he => (wellFormed_parts e (hwf e he)).2.1
  have hvalid : ∀ e ∈ s.workouts, storedValid e = true :=
    fun e he => (wellFormed_parts e (hwf e he)).1
  have hperm : (sortedByDistance s.workouts).Perm s.workouts := jsSort_perm _ _
  have hrendSorted : ∀ e ∈ (sortedByDistance s.workouts).reverse,
      (renderedItem e).isSome = true :=
    fun e he => hrend e (hperm.subset (List.mem_reverse.mp he))
  have hrendRev : ∀ e ∈ s.workouts.reverse, (renderedItem e).isSome = true :=
    fun e he => hrend e (List.mem_reverse.mp he)
  have hremove := removeSweep_in_sync s hsome hsync
  have hsort : _sortWorkoutByDistance s = Outcome.ok
      { s with rendered := (sortedByDistance s.workouts).reverse.filterMap renderedItem } := by
    unfold _sortWorkoutByDistance
    rw [hremove]
    simp only [Outcome.andThen]
    rw [renderSweep_all _ _ (fun e he => hrendSorted e (List.mem_reverse.mpr he))]
    simp
  have hback : _backToNormal s = Outcome.ok
      { s with rendered := s.workouts.reverse.filterMap renderedItem } := by
    unfold _backToNormal
    rw [hremove]
    simp only [Outcome.andThen]
    rw [renderSweep_all _ _ hrend]
    simp
  have hdist : ((sortedByDistance s.workouts).reverse.filterMap renderedItem).map itemDistance =
      ((sortedByDistance s.workouts).map distanceKey).reverse := by
    rw [renderedItem_distance _ hrendSorted, List.map_reverse]
  refine ⟨hsort, ?_, ?_, ?_, hback, ?_⟩
  · rw [hsort]
    simp only [Outcome.state, renderedIds]
    rw [renderedItem_ids _ hrendSorted, List.filterMap_reverse]
  · rw [hsort]
    exact hdist
  · rw [hsort]
    simp only [Outcome.state]
    rw [hdist, List.pairwise_reverse, List.pairwise_map]
    exact jsSort_sorted compareDistance distanceKey (fun e => storedValid e = true)
      compareDistance_gt s.workouts hvalid
  · rw [hback]
    simp only [Outcome.state, renderedIds]
    rw [renderedItem_ids _ hrendRev, List.filterMap_reverse]
    rfl

/-! ## Concrete runs for the sweep and the sorted list -/

/-- Instance of C11: in the store of five workouts `a1` to `e5`, all rendered,
`_deleteWorkout` on the second one (index 1) removes the two workouts at the
indices 1 and 2 and leaves `a1`, `d4`, `e5`, which is what it writes to
`localStorage`. -/
theorem deleteWorkout_removes_range_witness :
    fiveStored.workouts = fiveWorkouts.map some ∧
    (fiveWorkouts.map Workout.id).Nodup ∧
    fiveWorkouts.get? 1 = some secondStored ∧
    secondStored.id ∈ renderedIds fiveStored ∧
    storeIds (_deleteWorkout secondStored fiveStored).state = ["a1", "d4", "e5"] ∧
    (_deleteWorkout secondStored fiveStored).state.workouts =
      (fiveWorkouts.take 1 ++ fiveWorkouts.drop (2 * 1 + 1)).map some ∧
    (fiveWorkouts.take 1 ++ fiveWorkouts.drop (2 * 1 + 1)).length +
      min (1 + 1) (fiveWorkouts.length - 1) = fiveWorkouts.length ∧
    (_deleteWorkout secondStored fiveStored).completed = true ∧
    (_deleteWorkout secondStored fiveStored).state.storage =
      some ((fiveWorkouts.take 1 ++ fiveWorkouts.drop (2 * 1 + 1)).map some) :=
  have h := deleteWorkout_removes_range fiveStored fiveWorkouts 1 secondStored
    (by decide!) (by decide!) (by decide!) (by decide!)
  ⟨by decide!, by decide!, by decide!, by decide!, by decide!, h.1, h.2.1,
   (h.2.2 ⟨11, 21, rfl⟩).1, (h.2.2 ⟨11, 21, rfl⟩).2.1⟩

/-- C12 as stated fails: in the state `orphaned` the one stored workout has
its list item, and the list also holds the item of a workout that was
rendered without being stored; after `_sortWorkoutByDistance` the list reads
5 km, then 1 km. -/
theorem sort_leaves_other_items_below :
    (∀ e ∈ orphaned.workouts, wellFormed e = true) ∧
    storeIds orphaned = ["a1"] ∧
    renderedIds orphaned = ["c3", "a1"] ∧
    (_sortWorkoutByDistance orphaned).completed = true ∧
    renderedIds (_sortWorkoutByDistance orphaned).state = ["a1", "c3"] ∧
    (_sortWorkoutByDistance orphaned).state.rendered.map itemDistance = [5, 1] ∧
    ¬ ((_sortWorkoutByDistance orphaned).state.rendered.map itemDistance).Pairwise (· ≤ ·) := by
  decide!

/-- Instance of the amended C12: the five stored workouts with distances 5, 2,
8, 3, 6 are listed after the sort as 2, 3, 5, 6, 8 from top to bottom, and
after `_backToNormal` with the last created on top.  Two workouts whose
distances `5` and `5.0000000000000000001` are the same double keep their
store order in the sort, so the one created last is listed on top. -/
theorem sort_shows_ascending_witness :
    (∀ e ∈ fiveStored.workouts, wellFormed e = true) ∧
    (storeIds fiveStored).Perm (renderedIds fiveStored) ∧
    fiveStored.workouts.map distanceKey = [5, 2, 8, 3, 6] ∧
    (sortedByDistance fiveStored.workouts).map distanceKey = [8, 6, 5, 3, 2] ∧
    (_sortWorkoutByDistance fiveStored).state.rendered.map itemDistance = [2, 3, 5, 6, 8] ∧
    renderedIds (_backToNormal fiveStored).state = ["e5", "d4", "c3", "b2", "a1"] ∧
    toNumber "5.0000000000000000001" = JSNum.fin 5 ∧
    storeIds tiedStored = ["a1", "b2"] ∧
    renderedIds (_sortWorkoutByDistance tiedStored).state = ["b2", "a1"] ∧
    (_sortWorkoutByDistance fiveStored = Outcome.ok
      { fiveStored with
        rendered := (sortedByDistance fiveStored.workouts).reverse.filterMap renderedItem } ∧
    renderedIds (_sortWorkoutByDistance fiveStored).state =
      ((sortedByDistance fiveStored.workouts).filterMap (Option.map Workout.id)).reverse ∧
    (_sortWorkoutByDistance fiveStored).state.rendered.map itemDistance =
      ((sortedByDistance fiveStored.workouts).map distanceKey).reverse ∧
    ((_sortWorkoutByDistance fiveStored).state.rendered.map itemDistance).Pairwise (· ≤ ·) ∧
    _backToNormal fiveStored = Outcome.ok
      { fiveStored with rendered := fiveStored.workouts.reverse.filterMap renderedItem } ∧
    renderedIds (_backToNormal fiveStored).state = (storeIds fiveStored).reverse) :=
  ⟨by decide!, by decide!, by decide!, by decide!, by decide!, by decide!,
   by decide!, by decide!, by decide!,
   sort_shows_ascending fiveStored (by decide!) (by decide!)⟩

end Mapty
